import Mathlib

set_option maxRecDepth 10000

/-!
# Verification of the OIDyssey SNMP operational core

This file gives a shallow embedding, in Lean 4, of the stateful core of the
OIDyssey repository — the response cache (`cacheManager.ts`), the per-device
rate limiter (`rateLimiter.ts`), the session pool (`sessionManager.ts`), the
credential fingerprinting utility (`credentialUtils.ts`), and the two trap
listener entry points (`GenericFunctions.ts` / `SnmpTrapTrigger.node.ts`) —
and proves or refutes the behavioural properties stated in the specification.

Modelling conventions:
* JavaScript `Map` objects are modelled as association lists (`List (String × β)`)
  with `Map.get` / `Map.set` / `Map.delete` translated to `mapGet` / `mapSet` /
  `mapDelete`; `Map.set` keeps insertion order, as JS does.
* `Date.now()` is passed explicitly as a `now : Nat` parameter (milliseconds).
  Subtractions `now - t` are Nat-truncated; for nonnegative TTLs and durations
  this agrees with the JS comparison semantics used by the code.
* 32-bit JS arithmetic (`<<`, `&`, `| 0` style coercions) is modelled on `Int`
  with explicit reduction `mod 2^32` into the signed range (`toInt32`).
* Thrown exceptions are modelled with `Except String`; a `try`/`catch` is a
  `match` on the `Except` value.
* Strings are assumed to hold only basic-plane characters, so JS `charCodeAt`
  and `.length` agree with `Char.toNat` and `String.length`.
-/

/-! ## Character-level models of the JavaScript string primitives

The JS string methods used by the source (`toLowerCase`, `trim`, `split`,
`startsWith`, `includes`) are modelled by structural recursion over the
character list of the string, matching their semantics on basic-plane
strings. -/

/-- JS `String.prototype.toLowerCase` (ASCII/basic-plane characters). -/
def jsToLower (s : String) : String :=
  ⟨s.data.map Char.toLower⟩

/-- The whitespace characters stripped by JS `String.prototype.trim`
(ASCII subset). -/
def isJsSpace (c : Char) : Bool :=
  decide (c = ' ' ∨ c = '\t' ∨ c = '\n' ∨ c = '\r' ∨ c = '\x0b' ∨ c = '\x0c')

/-- JS `String.prototype.trim`. -/
def jsTrim (s : String) : String :=
  ⟨((s.data.dropWhile isJsSpace).reverse.dropWhile isJsSpace).reverse⟩

/-- JS `String.prototype.split` with a single-character separator. -/
def splitCharList (sep : Char) : List Char → List (List Char)
  | [] => [[]]
  | c :: cs =>
    match splitCharList sep cs, decide (c = sep) with
    | r, true => [] :: r
    | [], false => [[c]]
    | h :: t, false => (c :: h) :: t

/-- JS `String.prototype.split` with a single-character separator. -/
def jsSplit (s : String) (sep : Char) : List String :=
  (splitCharList sep s.data).map String.mk

/-- JS `String.prototype.startsWith`. -/
def jsStartsWith (s head : String) : Bool :=
  head.data.isPrefixOf s.data

/-- JS `String.prototype.includes` with a single-character argument. -/
def jsIncludesChar (s : String) (c : Char) : Bool :=
  s.data.contains c

/-! ## Association-list model of the JavaScript `Map` -/

/-- `Map.get`: the value stored under `k`, if any. -/
def mapGet {β : Type} (m : List (String × β)) (k : String) : Option β :=
  (m.find? (fun p => p.1 = k)).map (·.2)

/-- `Map.set`: overwrite in place if the key exists (JS `Map.set` keeps the
original insertion position), otherwise append. -/
def mapSet {β : Type} (m : List (String × β)) (k : String) (v : β) :
    List (String × β) :=
  if m.any (fun p => p.1 = k) then
    m.map (fun p => if p.1 = k then (k, v) else p)
  else
    m ++ [(k, v)]

/-- `Map.delete`: remove the entry stored under `k`. -/
def mapDelete {β : Type} (m : List (String × β)) (k : String) :
    List (String × β) :=
  m.filter (fun p => p.1 ≠ k)

theorem mapGet_mapSet_self {β : Type} (m : List (String × β)) (k : String) (v : β) :
    mapGet (mapSet m k v) k = some v := by
  unfold mapGet mapSet
  by_cases h : m.any (fun p => p.1 = k)
  · simp only [h, if_true]
    induction m with
    | nil => simp at h
    | cons p rest ih =>
      by_cases hp : p.1 = k
      · simp [List.find?, hp]
      · have hr : rest.any (fun p => p.1 = k) := by
          simp only [List.any_cons, decide_eq_true_eq, hp] at h
          simpa using h
        simpa [List.find?, hp] using ih hr
  · simp only [h, if_false]
    induction m with
    | nil => simp [List.find?]
    | cons p rest ih =>
      have hp : ¬ p.1 = k := by
        intro hc
        exact h (by simp [List.any_cons, hc])
      have hr : ¬ rest.any (fun q => q.1 = k) := by
        intro hc
        exact h (by simp [List.any_cons, hc])
      simpa [List.find?, hp] using ih hr

theorem length_mapSet_le {β : Type} (m : List (String × β)) (k : String) (v : β) :
    (mapSet m k v).length ≤ m.length + 1 := by
  unfold mapSet
  by_cases h : m.any (fun p => p.1 = k) <;> simp [h]

theorem length_mapDelete_le {β : Type} (m : List (String × β)) (k : String) :
    (mapDelete m k).length ≤ m.length :=
  List.length_filter_le _ m

theorem length_mapDelete_lt {β : Type} (m : List (String × β)) (k : String)
    (h : ∃ p ∈ m, p.1 = k) : (mapDelete m k).length < m.length := by
  unfold mapDelete
  obtain ⟨p, hp, hk⟩ := h
  induction m with
  | nil => cases hp
  | cons q rest ih =>
    rcases List.mem_cons.mp hp with rfl | hmem
    · simp only [List.filter_cons]
      have : (decide (p.1 ≠ k)) = false := by simp [hk]
      rw [this]
      simp only [List.length_cons]
      exact Nat.lt_succ_of_le (List.length_filter_le _ rest)
    · by_cases hq : q.1 ≠ k
      · simp only [List.filter_cons]
        have : (decide (q.1 ≠ k)) = true := by simpa using hq
        rw [this]
        simpa using Nat.succ_lt_succ (ih hmem)
      · simp only [List.filter_cons]
        have : (decide (q.1 ≠ k)) = false := by simpa using hq
        rw [this]
        exact Nat.lt_succ_of_le (List.length_filter_le _ rest)

/-! ## Response cache (`src/utils/snmp/cacheManager.ts`, class `SnmpCacheManager`)

The cache is a `Map` from `host:oid` keys to entries carrying the payload, a
creation timestamp, a TTL, and access statistics.  The payload type is kept
abstract as a type parameter `α` (the source stores `any`). -/

namespace SnmpCache

/-- `MibCacheConfig` as consumed by the `SnmpCacheManager` constructor. -/
structure MibCacheConfig where
  staticDataTtl : Nat
  dynamicDataTtl : Nat
  maxCacheSize : Nat
  enableCompression : Bool

/-- `CacheEntry` from `cacheManager.ts`. -/
structure CacheEntry (α : Type) where
  value : α
  timestamp : Nat
  ttl : Nat
  oid : String
  host : String
  hitCount : Nat
  lastAccess : Nat

/-- The private `cache : Map<string, CacheEntry>`. -/
abbrev Cache (α : Type) := List (String × CacheEntry α)

/-- `createCacheKey`: lowercase host, colon, raw OID. -/
def createCacheKey (host oid : String) : String :=
  jsToLower host ++ ":" ++ oid

/-- One regex from the `TTL_PATTERNS` table: the source uses either anchored
exact patterns (`^...$`) or anchored head patterns (`^...`). -/
inductive OidPat
  | exact (s : String)
  | starts (s : String)

def OidPat.matches : OidPat → String → Bool
  | .exact s, oid => oid == s
  | .starts s, oid => jsStartsWith oid s

/-- The `TTL_PATTERNS` table, in `Object.values` iteration order
(STATIC_SYSTEM, INTERFACE_CONFIG, COUNTERS, STATUS, ENTERPRISE). -/
def ttlPatterns : List (OidPat × Nat) :=
  [ (.exact "1.3.6.1.2.1.1.1.0", 24 * 60 * 60 * 1000),
    (.exact "1.3.6.1.2.1.1.2.0", 24 * 60 * 60 * 1000),
    (.exact "1.3.6.1.2.1.1.4.0", 24 * 60 * 60 * 1000),
    (.exact "1.3.6.1.2.1.1.5.0", 24 * 60 * 60 * 1000),
    (.exact "1.3.6.1.2.1.1.6.0", 24 * 60 * 60 * 1000),
    (.starts "1.3.6.1.2.1.2.2.1.2.", 60 * 60 * 1000),
    (.starts "1.3.6.1.2.1.2.2.1.3.", 60 * 60 * 1000),
    (.starts "1.3.6.1.2.1.2.2.1.4.", 60 * 60 * 1000),
    (.starts "1.3.6.1.2.1.2.2.1.5.", 60 * 60 * 1000),
    (.starts "1.3.6.1.2.1.2.2.1.6.", 60 * 60 * 1000),
    (.starts "1.3.6.1.2.1.2.2.1.10.", 5 * 60 * 1000),
    (.starts "1.3.6.1.2.1.2.2.1.11.", 5 * 60 * 1000),
    (.starts "1.3.6.1.2.1.2.2.1.16.", 5 * 60 * 1000),
    (.starts "1.3.6.1.2.1.2.2.1.17.", 5 * 60 * 1000),
    (.exact "1.3.6.1.2.1.1.3.0", 30 * 1000),
    (.starts "1.3.6.1.2.1.2.2.1.7.", 30 * 1000),
    (.starts "1.3.6.1.2.1.2.2.1.8.", 30 * 1000),
    (.starts "1.3.6.1.4.1.", 10 * 60 * 1000) ]

/-- `determineTtl`: first matching pattern wins, otherwise `dynamicDataTtl`. -/
def determineTtl (cfg : MibCacheConfig) (oid : String) : Nat :=
  match ttlPatterns.find? (fun p => p.1.matches oid) with
  | some p => p.2
  | none => cfg.dynamicDataTtl

/-- `isExpired`: `(Date.now() - entry.timestamp) > entry.ttl`. -/
def isExpired {α : Type} (now : Nat) (e : CacheEntry α) : Bool :=
  decide (e.ttl < now - e.timestamp)

/-- `compress` — the source implementation returns the value unchanged. -/
def compress {α : Type} (v : α) : α := v

/-- `decompress` — the source implementation returns the value unchanged. -/
def decompress {α : Type} (v : α) : α := v

/-- `getCachedValue`: miss on absent key, lazy delete of an expired entry,
hit bumps `hitCount`/`lastAccess`.  Returns the produced value together with
the updated store. -/
def getCachedValue {α : Type} (cfg : MibCacheConfig) (c : Cache α) (now : Nat)
    (host oid : String) : Option α × Cache α :=
  let key := createCacheKey host oid
  match mapGet c key with
  | none => (none, c)
  | some e =>
    if isExpired now e then (none, mapDelete c key)
    else
      let e' := { e with hitCount := e.hitCount + 1, lastAccess := now }
      (some (if cfg.enableCompression then decompress e.value else e.value),
        mapSet c key e')

/-- `cleanup`: delete every expired entry, i.e. keep the unexpired ones. -/
def cleanupCache {α : Type} (now : Nat) (c : Cache α) : Cache α :=
  c.filter (fun p => ¬ isExpired now p.2)

/-- The comparator passed to `entries.sort`: ascending by `lastAccess`, ties
broken by ascending `hitCount`. -/
def leEntry {α : Type} (a b : String × CacheEntry α) : Bool :=
  decide (a.2.lastAccess < b.2.lastAccess ∨
    (a.2.lastAccess = b.2.lastAccess ∧ a.2.hitCount ≤ b.2.hitCount))

/-- Stable insertion used to model the (stable) `Array.prototype.sort`. -/
def insertLe {α : Type} (x : String × CacheEntry α) : Cache α → Cache α
  | [] => [x]
  | y :: ys => if leEntry x y then x :: y :: ys else y :: insertLe x ys

/-- Stable sort of the cache entries by `leEntry`. -/
def sortEntries {α : Type} : Cache α → Cache α
  | [] => []
  | x :: xs => insertLe x (sortEntries xs)

/-- `evictOldEntries`: sweep expired entries; if the store still fills its
capacity, sort by (lastAccess, hitCount) and delete the lowest
`Math.floor(length * 0.2)` entries (`length / 5` over the integers). -/
def evictOldEntries {α : Type} (cfg : MibCacheConfig) (now : Nat) (c : Cache α) :
    Cache α :=
  let c1 := cleanupCache now c
  if c1.length < cfg.maxCacheSize then c1
  else
    let sorted := sortEntries c1
    let removeCount := sorted.length / 5
    (sorted.take removeCount).foldl (fun acc p => mapDelete acc p.1) c1

/-- `setCachedValue`: evict when `cache.size >= maxCacheSize`, then store the
entry with a fresh timestamp and the chosen TTL. -/
def setCachedValue {α : Type} (cfg : MibCacheConfig) (c : Cache α) (now : Nat)
    (host oid : String) (value : α) (customTtl : Option Nat) : Cache α :=
  let key := createCacheKey host oid
  let ttl := customTtl.getD (determineTtl cfg oid)
  let c1 := if cfg.maxCacheSize ≤ c.length then evictOldEntries cfg now c else c
  mapSet c1 key
    { value := if cfg.enableCompression then compress value else value,
      timestamp := now, ttl := ttl, oid := oid, host := host,
      hitCount := 0, lastAccess := now }

/-- One entry of the snapshot consumed by `importCache`. -/
structure ImportEntry (α : Type) where
  host : String
  oid : String
  value : α
  timestamp : Nat
  ttl : Nat

/-- `importCache`: re-store, via `setCachedValue`, every snapshot entry whose
TTL has not yet elapsed relative to its recorded creation time; returns the
updated store and the number of imported entries. -/
def importCache {α : Type} (cfg : MibCacheConfig) (c : Cache α) (now : Nat)
    (entries : List (ImportEntry α)) : Cache α × Nat :=
  entries.foldl
    (fun acc e =>
      if now - e.timestamp < e.ttl then
        (setCachedValue cfg acc.1 now e.host e.oid e.value (some e.ttl), acc.2 + 1)
      else acc)
    (c, 0)

/-- One recorded `setCachedValue` call. -/
structure SetOp (α : Type) where
  now : Nat
  host : String
  oid : String
  value : α
  customTtl : Option Nat

/-- Replay a sequence of `setCachedValue` calls against a starting store. -/
def applySetOps {α : Type} (cfg : MibCacheConfig) (c0 : Cache α)
    (ops : List (SetOp α)) : Cache α :=
  ops.foldl (fun c op => setCachedValue cfg c op.now op.host op.oid op.value op.customTtl) c0

theorem insertLe_perm {α : Type} (x : String × CacheEntry α) :
    ∀ l : Cache α, List.Perm (insertLe x l) (x :: l) := by
  intro l
  induction l with
  | nil => exact List.Perm.refl _
  | cons y ys ih =>
    unfold insertLe
    by_cases h : leEntry x y
    · simp [h]
    · simp only [h, if_false]
      exact (List.Perm.cons y ih).trans (List.Perm.swap x y ys)

theorem sortEntries_perm {α : Type} :
    ∀ l : Cache α, List.Perm (sortEntries l) l := by
  intro l
  induction l with
  | nil => exact List.Perm.refl _
  | cons x xs ih =>
    unfold sortEntries
    exact (insertLe_perm x (sortEntries xs)).trans (List.Perm.cons x ih)

theorem length_foldl_mapDelete_le {β : Type} :
    ∀ (ks : List (String × β)) (acc : List (String × β)),
      (ks.foldl (fun a p => mapDelete a p.1) acc).length ≤ acc.length := by
  intro ks
  induction ks with
  | nil => intro acc; exact Nat.le_refl _
  | cons k rest ih =>
    intro acc
    calc ((k :: rest).foldl (fun a p => mapDelete a p.1) acc).length
        = (rest.foldl (fun a p => mapDelete a p.1) (mapDelete acc k.1)).length := rfl
      _ ≤ (mapDelete acc k.1).length := ih _
      _ ≤ acc.length := length_mapDelete_le _ _

/-- When the capacity is at least 5, `evictOldEntries` applied to a store at
capacity strictly shrinks it. -/
theorem length_evictOldEntries_lt {α : Type} (cfg : MibCacheConfig) (now : Nat)
    (c : Cache α) (h5 : 5 ≤ cfg.maxCacheSize) (hc : c.length = cfg.maxCacheSize) :
    (evictOldEntries cfg now c).length < cfg.maxCacheSize := by
  unfold evictOldEntries
  set c1 := cleanupCache now c with hc1
  have hle : c1.length ≤ cfg.maxCacheSize := by
    rw [hc1, ← hc]; exact List.length_filter_le _ c
  by_cases hlt : c1.length < cfg.maxCacheSize
  · simp [hlt]
  · have heq : c1.length = cfg.maxCacheSize := Nat.le_antisymm hle (Nat.le_of_not_lt hlt)
    simp only [hlt, if_false]
    have hperm := sortEntries_perm c1
    have hslen : (sortEntries c1).length = cfg.maxCacheSize := by
      rw [hperm.length_eq, heq]
    have hpos : 0 < (sortEntries c1).length := by omega
    obtain ⟨p, ps, hps⟩ := List.exists_cons_of_ne_nil (List.ne_nil_of_length_pos hpos)
    have hrc : 1 ≤ (sortEntries c1).length / 5 := by
      rw [hslen]; exact Nat.one_le_div_iff (by omega) |>.mpr h5
    have htake : ∃ qs, (sortEntries c1).take ((sortEntries c1).length / 5) = p :: qs := by
      obtain ⟨n, hn⟩ :=
        Nat.exists_eq_succ_of_ne_zero (by omega : (sortEntries c1).length / 5 ≠ 0)
      rw [hn, hps, List.take_succ_cons]
      exact ⟨_, rfl⟩
    obtain ⟨qs, hqs⟩ := htake
    rw [hqs]
    have hmem : p ∈ c1 := hperm.subset (by rw [hps]; exact List.mem_cons_self _ _)
    calc ((p :: qs).foldl (fun a q => mapDelete a q.1) c1).length
        = (qs.foldl (fun a q => mapDelete a q.1) (mapDelete c1 p.1)).length := rfl
      _ ≤ (mapDelete c1 p.1).length := length_foldl_mapDelete_le _ _
      _ < c1.length := length_mapDelete_lt c1 p.1 ⟨p, hmem, rfl⟩
      _ ≤ cfg.maxCacheSize := hle

/-- Single-step capacity preservation of `setCachedValue` for capacities ≥ 5. -/
theorem length_setCachedValue_le {α : Type} (cfg : MibCacheConfig)
    (h5 : 5 ≤ cfg.maxCacheSize) (c : Cache α)
    (hc : c.length ≤ cfg.maxCacheSize) (now : Nat) (host oid : String)
    (v : α) (cttl : Option Nat) :
    (setCachedValue cfg c now host oid v cttl).length ≤ cfg.maxCacheSize := by
  unfold setCachedValue
  by_cases hfull : cfg.maxCacheSize ≤ c.length
  · have heq : c.length = cfg.maxCacheSize := Nat.le_antisymm hc hfull
    have hev := length_evictOldEntries_lt cfg now c h5 heq
    simp only [hfull, if_true]
    calc (mapSet (evictOldEntries cfg now c) _ _).length
        ≤ (evictOldEntries cfg now c).length + 1 := length_mapSet_le _ _ _
      _ ≤ cfg.maxCacheSize := hev
  · simp only [hfull, if_false]
    have hlt : c.length < cfg.maxCacheSize := Nat.lt_of_not_le hfull
    calc (mapSet c _ _).length ≤ c.length + 1 := length_mapSet_le _ _ _
      _ ≤ cfg.maxCacheSize := hlt


/-- A `getCachedValue` immediately following a `setCachedValue` of the same
`(host, oid)` key sees exactly the freshly written entry: the value while the
TTL has not elapsed, a miss afterwards. -/
theorem getCachedValue_setCachedValue_same {α : Type} (cfg : MibCacheConfig)
    (c : Cache α) (now1 now2 : Nat) (host oid : String) (v : α) (t : Nat) :
    (getCachedValue cfg (setCachedValue cfg c now1 host oid v (some t)) now2 host oid).1 =
      if t < now2 - now1 then none else some v := by
  unfold getCachedValue setCachedValue
  simp only [mapGet_mapSet_self, Option.getD_some]
  by_cases h : t < now2 - now1
  · simp [isExpired, h]
  · simp [isExpired, h, compress, decompress]

/-- The `SnmpCacheManager` constructor defaults
(`maxCacheSize 10000`, `dynamicDataTtl` 5 minutes, `staticDataTtl` 24 hours). -/
def defaultCacheCfg : MibCacheConfig :=
  { staticDataTtl := 24 * 60 * 60 * 1000, dynamicDataTtl := 5 * 60 * 1000,
    maxCacheSize := 10000, enableCompression := false }

/-- A cache configured with `maxCacheSize := 1`. -/
def capOneCacheCfg : MibCacheConfig :=
  { defaultCacheCfg with maxCacheSize := 1 }

/-- A cache configured with `maxCacheSize := 5`. -/
def capFiveCacheCfg : MibCacheConfig :=
  { defaultCacheCfg with maxCacheSize := 5 }

/-- **C1 (counterexample)**: with `maxCacheSize := 1`, two `setCachedValue`
calls on distinct keys leave the store holding 2 entries — above its
configured ceiling — because `evictOldEntries` removes
`Math.floor(size * 0.2) = 0` entries when the store holds fewer than 5
entries and none is expired.  This refutes the claim that a completed
`setCachedValue` call never leaves the store above `maxCacheSize`. -/
theorem setCachedValue_capacity_counterexample :
    capOneCacheCfg.maxCacheSize = 1 ∧
    capOneCacheCfg.maxCacheSize <
      (applySetOps capOneCacheCfg ([] : Cache Nat)
        [⟨0, "h", "o1", 0, some 1000⟩, ⟨0, "h", "o2", 7, some 1000⟩]).length := by
  decide

/-- **C1 (amended)**: for every configured capacity of at least 5, every
sequence of `setCachedValue` calls starting from the empty store leaves the
store with at most `maxCacheSize` entries: when an insert finds the store at
capacity, the expired-entry sweep followed by eviction of the lowest
`size / 5 ≥ 1` entries (ordered by last-access time, then hit count) frees
room for it.  For capacities 1–4 the eviction count `Math.floor(size * 0.2)`
is 0 and the bound fails (see the counterexample). -/
theorem setCachedValue_respects_capacity {α : Type} (cfg : MibCacheConfig)
    (h5 : 5 ≤ cfg.maxCacheSize) (ops : List (SetOp α)) :
    (applySetOps cfg [] ops).length ≤ cfg.maxCacheSize := by
  suffices h : ∀ c : Cache α, c.length ≤ cfg.maxCacheSize →
      (applySetOps cfg c ops).length ≤ cfg.maxCacheSize by
    exact h [] (by simp)
  induction ops with
  | nil => intro c hc; exact hc
  | cons op rest ih =>
    intro c hc
    exact ih _ (length_setCachedValue_le cfg h5 c hc op.now op.host op.oid op.value op.customTtl)

/-- Witness for C1 (amended): six inserts into a store of capacity 5 end at
or below capacity. -/
theorem setCachedValue_respects_capacity_witness :
    5 ≤ capFiveCacheCfg.maxCacheSize ∧
    (applySetOps capFiveCacheCfg ([] : Cache Nat)
      [⟨0, "h", "o1", 0, some 1000⟩, ⟨1, "h", "o2", 1, some 1000⟩,
       ⟨2, "h", "o3", 2, some 1000⟩, ⟨3, "h", "o4", 3, some 1000⟩,
       ⟨4, "h", "o5", 4, some 1000⟩, ⟨5, "h", "o6", 5, some 1000⟩]).length ≤
      capFiveCacheCfg.maxCacheSize :=
  ⟨by decide, setCachedValue_respects_capacity capFiveCacheCfg (by decide) _⟩

/-- **C5**: a value written with TTL `t` at time `now1` is returned by
`getCachedValue` at every time strictly before `now1 + t` and is absent at
every time strictly after `now1 + t`; overwriting the same `(host, oid)` key
at `now3` with TTL `t2` makes the new write time govern the expiry
(`now3 + t2`), regardless of the earlier write. -/
theorem cache_ttl_property {α : Type} (cfg : MibCacheConfig) (c : Cache α)
    (host oid : String) (v : α) (t now1 now2 : Nat) :
    (now2 < now1 + t →
      (getCachedValue cfg (setCachedValue cfg c now1 host oid v (some t))
        now2 host oid).1 = some v) ∧
    (now1 + t < now2 →
      (getCachedValue cfg (setCachedValue cfg c now1 host oid v (some t))
        now2 host oid).1 = none) ∧
    (∀ (v2 : α) (t2 now3 now4 : Nat),
      (now4 < now3 + t2 →
        (getCachedValue cfg
          (setCachedValue cfg (setCachedValue cfg c now1 host oid v (some t))
            now3 host oid v2 (some t2)) now4 host oid).1 = some v2) ∧
      (now3 + t2 < now4 →
        (getCachedValue cfg
          (setCachedValue cfg (setCachedValue cfg c now1 host oid v (some t))
            now3 host oid v2 (some t2)) now4 host oid).1 = none)) := by
  refine ⟨?_, ?_, ?_⟩
  · intro h
    rw [getCachedValue_setCachedValue_same, if_neg (by omega)]
  · intro h
    rw [getCachedValue_setCachedValue_same, if_pos (by omega)]
  · intro v2 t2 now3 now4
    constructor
    · intro h
      rw [getCachedValue_setCachedValue_same, if_neg (by omega)]
    · intro h
      rw [getCachedValue_setCachedValue_same, if_pos (by omega)]

/-- Witness for C5: with TTL 200 written at time 0, the value is present at
150 and absent at 250; rewriting at time 300 with TTL 100 makes it present
again at 350. -/
theorem cache_ttl_property_witness :
    (getCachedValue defaultCacheCfg
      (setCachedValue defaultCacheCfg ([] : Cache Nat) 0 "h1" "1.3.6.1.2.1.1.1.0" 42 (some 200))
      150 "h1" "1.3.6.1.2.1.1.1.0").1 = some 42 ∧
    (getCachedValue defaultCacheCfg
      (setCachedValue defaultCacheCfg ([] : Cache Nat) 0 "h1" "1.3.6.1.2.1.1.1.0" 42 (some 200))
      250 "h1" "1.3.6.1.2.1.1.1.0").1 = none ∧
    (getCachedValue defaultCacheCfg
      (setCachedValue defaultCacheCfg
        (setCachedValue defaultCacheCfg ([] : Cache Nat) 0 "h1" "1.3.6.1.2.1.1.1.0" 42 (some 200))
        300 "h1" "1.3.6.1.2.1.1.1.0" 7 (some 100))
      350 "h1" "1.3.6.1.2.1.1.1.0").1 = some 7 :=
  ⟨(cache_ttl_property defaultCacheCfg [] "h1" "1.3.6.1.2.1.1.1.0" 42 200 0 150).1 (by decide),
   (cache_ttl_property defaultCacheCfg [] "h1" "1.3.6.1.2.1.1.1.0" 42 200 0 250).2.1 (by decide),
   ((cache_ttl_property defaultCacheCfg [] "h1" "1.3.6.1.2.1.1.1.0" 42 200 0 350).2.2
      7 100 300 350).1 (by decide)⟩

/-- **C10**: an entry accepted by `importCache` (its TTL not yet elapsed
relative to its recorded creation time) is re-stored through `setCachedValue`
with a fresh creation timestamp equal to the import time, so it stays
retrievable until `import time + ttl` — even past its original
`timestamp + ttl` — while an entry whose TTL has elapsed is skipped and
leaves the store untouched. -/
theorem importCache_refreshes_lifetime {α : Type} (cfg : MibCacheConfig)
    (c : Cache α) (e : ImportEntry α) (now : Nat)
    (hacc : now - e.timestamp < e.ttl) :
    importCache cfg c now [e] =
      (setCachedValue cfg c now e.host e.oid e.value (some e.ttl), 1) ∧
    (mapGet (importCache cfg c now [e]).1 (createCacheKey e.host e.oid)).map
      (fun en => en.timestamp) = some now ∧
    (∀ now2, now2 < now + e.ttl →
      (getCachedValue cfg (importCache cfg c now [e]).1 now2 e.host e.oid).1 =
        some e.value) ∧
    (∀ e2 : ImportEntry α, e2.ttl ≤ now - e2.timestamp →
      importCache cfg c now [e2] = (c, 0)) := by
  have h1 : importCache cfg c now [e] =
      (setCachedValue cfg c now e.host e.oid e.value (some e.ttl), 1) := by
    simp [importCache, hacc]
  refine ⟨h1, ?_, ?_, ?_⟩
  · rw [h1]
    show (mapGet (setCachedValue cfg c now e.host e.oid e.value (some e.ttl))
      (createCacheKey e.host e.oid)).map (fun en => en.timestamp) = some now
    unfold setCachedValue
    rw [mapGet_mapSet_self]
    rfl
  · intro now2 h2
    rw [h1]
    show (getCachedValue cfg (setCachedValue cfg c now e.host e.oid e.value (some e.ttl))
      now2 e.host e.oid).1 = some e.value
    rw [getCachedValue_setCachedValue_same, if_neg (by omega)]
  · intro e2 hrej
    simp [importCache, Nat.not_lt.mpr hrej]

/-- Witness for C10: an entry created at time 0 with TTL 100, imported at
time 90, is still retrievable at time 150 — past its original expiry 100,
before its refreshed expiry 190 — and an already expired entry is skipped. -/
theorem importCache_refreshes_lifetime_witness :
    (90 : Nat) - 0 < 100 ∧
    (mapGet (importCache defaultCacheCfg ([] : Cache Nat) 90
        [⟨"h", "o", 5, 0, 100⟩]).1 (createCacheKey "h" "o")).map
      (fun en => en.timestamp) = some 90 ∧
    (getCachedValue defaultCacheCfg
      (importCache defaultCacheCfg ([] : Cache Nat) 90 [⟨"h", "o", 5, 0, 100⟩]).1
      150 "h" "o").1 = some 5 ∧
    importCache defaultCacheCfg ([] : Cache Nat) 90 [⟨"h", "x", 5, 0, 50⟩] = ([], 0) :=
  ⟨by decide,
   (importCache_refreshes_lifetime defaultCacheCfg [] ⟨"h", "o", 5, 0, 100⟩ 90 (by decide)).2.1,
   (importCache_refreshes_lifetime defaultCacheCfg [] ⟨"h", "o", 5, 0, 100⟩ 90 (by decide)).2.2.1
     150 (by decide),
   (importCache_refreshes_lifetime defaultCacheCfg [] ⟨"h", "o", 5, 0, 100⟩ 90 (by decide)).2.2.2
     ⟨"h", "x", 5, 0, 50⟩ (by decide)⟩

end SnmpCache

/-! ## Generic list lemmas used by the rate-limiter invariant -/

theorem filter_eq_nil_of_none {α : Type} (p : α → Bool) :
    ∀ l : List α, (∀ a ∈ l, p a = false) → l.filter p = [] := by
  intro l
  induction l with
  | nil => intro _; rfl
  | cons x xs ih =>
    intro h
    have hx := h x (List.mem_cons_self _ _)
    simp only [List.filter_cons, hx]
    exact ih (fun a ha => h a (List.mem_cons_of_mem _ ha))

theorem filter_filter_of_imp {α : Type} (p q : α → Bool)
    (himp : ∀ a, p a = true → q a = true) :
    ∀ l : List α, (l.filter q).filter p = l.filter p := by
  intro l
  induction l with
  | nil => rfl
  | cons x xs ih =>
    by_cases hq : q x = true
    · by_cases hp : p x = true
      · simp [List.filter_cons, hq, hp, ih]
      · simp only [Bool.not_eq_true] at hp
        simp [List.filter_cons, hq, hp, ih]
    · have hp : p x = false := by
        cases hpx : p x with
        | true => exact absurd (himp x hpx) hq
        | false => rfl
      simp only [Bool.not_eq_true] at hq
      simp [List.filter_cons, hq, hp, ih]

theorem filter_sublist_of_imp {α : Type} (p q : α → Bool)
    (himp : ∀ a, p a = true → q a = true) (l : List α) :
    (l.filter p).Sublist (l.filter q) := by
  rw [← filter_filter_of_imp p q himp l]
  exact List.filter_sublist _

/-! ## Rate limiter (`src/utils/security/rateLimiter.ts`, class `SnmpRateLimiter`)

`checkRateLimit` is modelled as a function from the private `deviceLimits`
map, the current time and the host to the updated map and the returned
`{allowed, retryAfter}` record.  The source creates a fresh entry on first
sight, mutates it in place and leaves it in the map on every path; the model
computes the final entry and writes it back once. -/

namespace RateLimit

/-- `RateLimitConfig` from `SessionTypes.ts`. -/
structure RateLimitConfig where
  maxRequestsPerWindow : Nat
  windowSizeMs : Nat
  blockDurationMs : Nat
  enableRateLimiting : Bool
deriving DecidableEq

/-- `RateLimitEntry`: per-device request timestamps, window start, block flag. -/
structure RLEntry where
  host : String
  requests : List Nat
  windowStart : Nat
  blocked : Bool
deriving DecidableEq

/-- The private `deviceLimits : Map<string, RateLimitEntry>`. -/
abbrev RLMap := List (String × RLEntry)

/-- The `{allowed, retryAfter}` part of the `checkRateLimit` return value. -/
structure RLResult where
  allowed : Bool
  retryAfter : Option Nat
deriving DecidableEq

/-- `Math.ceil(ms / 1000)` on natural milliseconds. -/
def ceilDiv1000 (ms : Nat) : Nat := (ms + 999) / 1000

/-- `normalizeHost`: `host.toLowerCase().trim()`. -/
def normalizeHost (host : String) : String := jsTrim (jsToLower host)

/-- The body of `checkRateLimit` acting on one (fetched or freshly created)
entry.  Mirrors lines 51–86 of `rateLimiter.ts`: blocked-and-cooling early
rejection; block expiry resets the window; prune timestamps outside the
window (`timestamp > now - windowSizeMs`, written overflow-free as
`now < timestamp + windowSizeMs`); deny-and-block at the ceiling; otherwise
record and allow. -/
def checkEntry (cfg : RateLimitConfig) (e : RLEntry) (now : Nat) :
    RLEntry × RLResult :=
  if e.blocked = true ∧ now - e.windowStart < cfg.blockDurationMs then
    (e, ⟨false, some (ceilDiv1000 (cfg.blockDurationMs - (now - e.windowStart)))⟩)
  else
    let e1 := if e.blocked = true then
        { e with blocked := false, requests := [], windowStart := now }
      else e
    let reqs := e1.requests.filter (fun ts => decide (now < ts + cfg.windowSizeMs))
    if cfg.maxRequestsPerWindow ≤ reqs.length then
      ({ e1 with requests := reqs, blocked := true, windowStart := now },
        ⟨false, some (ceilDiv1000 cfg.blockDurationMs)⟩)
    else
      ({ e1 with requests := reqs ++ [now] }, ⟨true, none⟩)

/-- `checkRateLimit`: short-circuit when rate limiting is disabled, fetch or
create the entry under the normalized host key, run the check, store the
resulting entry. -/
def checkRateLimit (cfg : RateLimitConfig) (m : RLMap) (now : Nat)
    (host : String) : RLMap × RLResult :=
  if cfg.enableRateLimiting = false then (m, ⟨true, none⟩)
  else
    let key := normalizeHost host
    let e0 := (mapGet m key).getD ⟨key, [], now, false⟩
    let step := checkEntry cfg e0 now
    (mapSet m key step.1, step.2)

/-- Replay a sequence of `checkRateLimit` calls for one host, collecting the
`allowed` flags in call order. -/
def runChecks (cfg : RateLimitConfig) (host : String) :
    RLMap → List Nat → RLMap × List Bool
  | m, [] => (m, [])
  | m, t :: ts =>
    let step := checkRateLimit cfg m t host
    let rest := runChecks cfg host step.1 ts
    (rest.1, step.2.allowed :: rest.2)

/-- The call times at which the paired `allowed` flag is `true`. -/
def allowedTimes (times : List Nat) (flags : List Bool) : List Nat :=
  ((times.zip flags).filter (fun p => p.2)).map (fun p => p.1)

/-- The rolling-window bound: in every window `(t − windowSizeMs, t]` at most
`maxRequestsPerWindow` of the given times occur. -/
def windowBound (cfg : RateLimitConfig) (A : List Nat) : Prop :=
  ∀ t : Nat,
    (A.filter (fun a => decide (t < a + cfg.windowSizeMs ∧ a ≤ t))).length ≤
      cfg.maxRequestsPerWindow

/-- Invariant tying the trace of allowed times `A` and the last processed
call time `lastT` to the stored entry. -/
structure EntryInv (cfg : RateLimitConfig) (A : List Nat) (lastT : Nat)
    (e : RLEntry) : Prop where
  aBound : ∀ a ∈ A, a ≤ lastT
  aSub : (A.filter (fun a => decide (lastT < a + cfg.windowSizeMs))).Sublist e.requests
  rBound : ∀ r ∈ e.requests, r ≤ lastT
  rBlocked : e.blocked = true → ∀ r ∈ e.requests, r ≤ e.windowStart
  wsBound : e.windowStart ≤ lastT

end RateLimit

namespace RateLimit

/-- One `checkEntry` step preserves the trace invariant and the rolling-window
bound, provided the cooldown lasts at least one window
(`windowSizeMs ≤ blockDurationMs`) and call times are nondecreasing. -/
theorem checkEntry_inv (cfg : RateLimitConfig)
    (hW : cfg.windowSizeMs ≤ cfg.blockDurationMs)
    (A : List Nat) (lastT now : Nat) (e : RLEntry) (hle : lastT ≤ now)
    (hI : EntryInv cfg A lastT e) (hB : windowBound cfg A) :
    ((checkEntry cfg e now).2.allowed = true →
      EntryInv cfg (A ++ [now]) now (checkEntry cfg e now).1 ∧
      windowBound cfg (A ++ [now])) ∧
    ((checkEntry cfg e now).2.allowed = false →
      EntryInv cfg A now (checkEntry cfg e now).1 ∧
      windowBound cfg A) := by
  have hmono_now : (A.filter (fun a => decide (now < a + cfg.windowSizeMs))).Sublist
      (A.filter (fun a => decide (lastT < a + cfg.windowSizeMs))) :=
    filter_sublist_of_imp _ _
      (fun a h => by simp only [decide_eq_true_eq] at *; omega) A
  by_cases hearly : e.blocked = true ∧ now - e.windowStart < cfg.blockDurationMs
  · -- blocked and still cooling down: entry unchanged, request denied
    have hck : checkEntry cfg e now =
        (e, ⟨false, some (ceilDiv1000 (cfg.blockDurationMs - (now - e.windowStart)))⟩) := by
      simp only [checkEntry, if_pos hearly]
    rw [hck]
    refine ⟨fun h => by simp at h, fun _ => ?_⟩
    refine ⟨⟨?_, ?_, ?_, hI.rBlocked, le_trans hI.wsBound hle⟩, hB⟩
    · exact fun a ha => le_trans (hI.aBound a ha) hle
    · exact hmono_now.trans hI.aSub
    · exact fun r hr => le_trans (hI.rBound r hr) hle
  · -- not in a live cooldown
    by_cases hbl : e.blocked = true
    · -- the cooldown has expired: window reset, then check on an empty list
      have hres : cfg.blockDurationMs ≤ now - e.windowStart := by
        by_contra h
        exact hearly ⟨hbl, Nat.lt_of_not_le h⟩
      have hws := hI.wsBound
      have hAnil : A.filter (fun a => decide (now < a + cfg.windowSizeMs)) = [] := by
        apply filter_eq_nil_of_none
        intro a ha
        cases hd : decide (now < a + cfg.windowSizeMs) with
        | false => rfl
        | true =>
          exfalso
          have h1 : now < a + cfg.windowSizeMs := of_decide_eq_true hd
          have h2 : a ∈ e.requests := by
            refine hI.aSub.subset ?_
            simp only [List.mem_filter, decide_eq_true_eq]
            exact ⟨ha, by omega⟩
          have h3 := hI.rBlocked hbl a h2
          omega
      by_cases hmax : cfg.maxRequestsPerWindow ≤ 0
      · -- ceiling 0: immediately denied and re-blocked
        have hck : checkEntry cfg e now =
            ({ e with requests := [], blocked := true, windowStart := now },
              ⟨false, some (ceilDiv1000 cfg.blockDurationMs)⟩) := by
          simp only [checkEntry, if_neg hearly, if_pos hbl]
          simp only [List.filter_nil, List.length_nil, if_pos hmax]
        rw [hck]
        refine ⟨fun h => by simp at h, fun _ => ?_⟩
        refine ⟨⟨?_, ?_, ?_, ?_, le_refl now⟩, hB⟩
        · exact fun a ha => le_trans (hI.aBound a ha) hle
        · rw [hAnil]
        · intro r hr; cases hr
        · intro _ r hr; cases hr
      · -- ceiling positive: allowed, the fresh window records this call
        have hck : checkEntry cfg e now =
            ({ e with requests := [now], blocked := false, windowStart := now },
              ⟨true, none⟩) := by
          simp only [checkEntry, if_neg hearly, if_pos hbl]
          simp only [List.filter_nil, List.length_nil, if_neg hmax]
          rfl
        rw [hck]
        refine ⟨fun _ => ?_, fun h => by simp at h⟩
        constructor
        · refine ⟨?_, ?_, ?_, ?_, le_refl now⟩
          · intro a ha
            rcases List.mem_append.mp ha with h | h
            · exact le_trans (hI.aBound a h) hle
            · simp only [List.mem_singleton] at h; omega
          · rw [List.filter_append, hAnil, List.nil_append]
            exact List.filter_sublist _
          · intro r hr
            simp only [List.mem_singleton] at hr; omega
          · intro hfalse; cases hfalse
        · intro t
          rw [List.filter_append, List.length_append]
          by_cases ht : t < now + cfg.windowSizeMs ∧ now ≤ t
          · have hAt : A.filter (fun a => decide (t < a + cfg.windowSizeMs ∧ a ≤ t)) = [] := by
              apply filter_eq_nil_of_none
              intro a ha
              cases hd : decide (t < a + cfg.windowSizeMs ∧ a ≤ t) with
              | false => rfl
              | true =>
                exfalso
                have h1 := of_decide_eq_true hd
                have h2 : a ∈ A.filter (fun a => decide (now < a + cfg.windowSizeMs)) := by
                  simp only [List.mem_filter, decide_eq_true_eq]
                  exact ⟨ha, by omega⟩
                rw [hAnil] at h2
                cases h2
            rw [hAt]
            simp only [List.length_nil, Nat.zero_add]
            have h2 : ([now].filter (fun a => decide (t < a + cfg.windowSizeMs ∧ a ≤ t))).length ≤ 1 :=
              List.Sublist.length_le (List.filter_sublist _)
            omega
          · have hone : ([now].filter (fun a => decide (t < a + cfg.windowSizeMs ∧ a ≤ t))) = [] := by
              apply filter_eq_nil_of_none
              intro a ha
              simp only [List.mem_singleton] at ha
              subst ha
              exact decide_eq_false ht
            rw [hone]
            simpa using hB t
    · -- not blocked: prune the window, then deny-and-block or record-and-allow
      have he1 : e.blocked = false := by
        cases h : e.blocked with
        | true => exact absurd h hbl
        | false => rfl
      have hsub : (A.filter (fun a => decide (now < a + cfg.windowSizeMs))).Sublist
          (e.requests.filter (fun ts => decide (now < ts + cfg.windowSizeMs))) := by
        have h1 := hI.aSub.filter (fun ts => decide (now < ts + cfg.windowSizeMs))
        rwa [filter_filter_of_imp _ _
          (fun a h => by simp only [decide_eq_true_eq] at *; omega) A] at h1
      by_cases hmax : cfg.maxRequestsPerWindow ≤
          (e.requests.filter (fun ts => decide (now < ts + cfg.windowSizeMs))).length
      · -- at the ceiling: denied, entry flips to blocked with windowStart = now
        have hck : checkEntry cfg e now =
            ({ e with
                requests := e.requests.filter (fun ts => decide (now < ts + cfg.windowSizeMs)),
                blocked := true, windowStart := now },
              ⟨false, some (ceilDiv1000 cfg.blockDurationMs)⟩) := by
          simp only [checkEntry, if_neg hearly, if_neg hbl]
          simp only [if_pos hmax]
        rw [hck]
        refine ⟨fun h => by simp at h, fun _ => ?_⟩
        refine ⟨⟨?_, hsub, ?_, ?_, le_refl now⟩, hB⟩
        · exact fun a ha => le_trans (hI.aBound a ha) hle
        · intro r hr
          exact le_trans (hI.rBound r (List.mem_of_mem_filter hr)) hle
        · intro _ r hr
          exact le_trans (hI.rBound r (List.mem_of_mem_filter hr)) hle
      · -- under the ceiling: allowed, this call's timestamp is recorded
        have hck : checkEntry cfg e now =
            ({ e with
                requests :=
                  e.requests.filter (fun ts => decide (now < ts + cfg.windowSizeMs)) ++ [now] },
              ⟨true, none⟩) := by
          simp only [checkEntry, if_neg hearly, if_neg hbl]
          simp only [if_neg hmax]
        rw [hck]
        refine ⟨fun _ => ?_, fun h => by simp at h⟩
        constructor
        · refine ⟨?_, ?_, ?_, ?_, le_trans hI.wsBound hle⟩
          · intro a ha
            rcases List.mem_append.mp ha with h | h
            · exact le_trans (hI.aBound a h) hle
            · simp only [List.mem_singleton] at h; omega
          · rw [List.filter_append]
            exact List.Sublist.append hsub (List.filter_sublist _)
          · intro r hr
            rcases List.mem_append.mp hr with h | h
            · exact le_trans (hI.rBound r (List.mem_of_mem_filter h)) hle
            · simp only [List.mem_singleton] at h; omega
          · intro hfalse
            simp only [he1] at hfalse
            cases hfalse
        · intro t
          rw [List.filter_append, List.length_append]
          by_cases ht : t < now + cfg.windowSizeMs ∧ now ≤ t
          · have hflt : (A.filter (fun a => decide (t < a + cfg.windowSizeMs ∧ a ≤ t))).Sublist
                (A.filter (fun a => decide (now < a + cfg.windowSizeMs))) :=
              filter_sublist_of_imp _ _
                (fun a h => by simp only [decide_eq_true_eq] at *; omega) A
            have h1 : (A.filter (fun a => decide (t < a + cfg.windowSizeMs ∧ a ≤ t))).length <
                cfg.maxRequestsPerWindow :=
              Nat.lt_of_le_of_lt (le_trans hflt.length_le hsub.length_le)
                (Nat.lt_of_not_le hmax)
            have h2 : ([now].filter (fun a => decide (t < a + cfg.windowSizeMs ∧ a ≤ t))).length ≤ 1 :=
              List.Sublist.length_le (List.filter_sublist _)
            omega
          · have hone : ([now].filter (fun a => decide (t < a + cfg.windowSizeMs ∧ a ≤ t))) = [] := by
              apply filter_eq_nil_of_none
              intro a ha
              simp only [List.mem_singleton] at ha
              subst ha
              exact decide_eq_false ht
            rw [hone]
            simpa using hB t

end RateLimit

namespace RateLimit

/-- Map-level invariant for one device key: either no call has been processed
yet, or the key's entry satisfies the trace invariant. -/
def StInv (cfg : RateLimitConfig) (key : String) (m : RLMap) (A : List Nat)
    (lastT : Nat) : Prop :=
  (m = [] ∧ A = []) ∨ (∃ e, mapGet m key = some e ∧ EntryInv cfg A lastT e)

/-- The fresh entry invariant and the empty-trace window bound. -/
theorem entryInv_fresh (cfg : RateLimitConfig) (key : String) (now : Nat) :
    EntryInv cfg [] now ⟨key, [], now, false⟩ := by
  refine ⟨?_, ?_, ?_, ?_, le_refl now⟩
  · intro a ha; cases ha
  · simp
  · intro r hr; cases hr
  · intro _ r hr; cases hr

theorem windowBound_nil (cfg : RateLimitConfig) : windowBound cfg [] := by
  intro t; simp

/-- One `checkRateLimit` step preserves the map-level invariant. -/
theorem checkRateLimit_inv (cfg : RateLimitConfig)
    (hen : cfg.enableRateLimiting = true)
    (hW : cfg.windowSizeMs ≤ cfg.blockDurationMs) (host : String)
    (m : RLMap) (A : List Nat) (lastT now : Nat) (hle : lastT ≤ now)
    (hSt : StInv cfg (normalizeHost host) m A lastT) (hB : windowBound cfg A) :
    ((checkRateLimit cfg m now host).2.allowed = true →
      StInv cfg (normalizeHost host) (checkRateLimit cfg m now host).1
        (A ++ [now]) now ∧ windowBound cfg (A ++ [now])) ∧
    ((checkRateLimit cfg m now host).2.allowed = false →
      StInv cfg (normalizeHost host) (checkRateLimit cfg m now host).1 A now ∧
      windowBound cfg A) := by
  rcases hSt with ⟨hm, hA⟩ | ⟨e, hme, hI⟩
  · subst hm; subst hA
    have hck : checkRateLimit cfg [] now host =
        (mapSet [] (normalizeHost host)
            (checkEntry cfg ⟨normalizeHost host, [], now, false⟩ now).1,
          (checkEntry cfg ⟨normalizeHost host, [], now, false⟩ now).2) := by
      unfold checkRateLimit
      rw [if_neg (by simp [hen])]
      rfl
    have hck1 : (checkRateLimit cfg [] now host).1 =
        mapSet [] (normalizeHost host)
          (checkEntry cfg ⟨normalizeHost host, [], now, false⟩ now).1 := by
      rw [hck]
    have hck2 : (checkRateLimit cfg [] now host).2 =
        (checkEntry cfg ⟨normalizeHost host, [], now, false⟩ now).2 := by
      rw [hck]
    have hstep := checkEntry_inv cfg hW [] now now
      ⟨normalizeHost host, [], now, false⟩ (le_refl now)
      (entryInv_fresh cfg (normalizeHost host) now) (windowBound_nil cfg)
    constructor
    · intro h
      rw [hck2] at h
      rw [hck1]
      obtain ⟨hInv, hWB⟩ := hstep.1 h
      exact ⟨Or.inr ⟨_, mapGet_mapSet_self _ _ _, hInv⟩, hWB⟩
    · intro h
      rw [hck2] at h
      rw [hck1]
      obtain ⟨hInv, hWB⟩ := hstep.2 h
      exact ⟨Or.inr ⟨_, mapGet_mapSet_self _ _ _, hInv⟩, hWB⟩
  · have hck : checkRateLimit cfg m now host =
        (mapSet m (normalizeHost host) (checkEntry cfg e now).1,
          (checkEntry cfg e now).2) := by
      unfold checkRateLimit
      rw [if_neg (by simp [hen])]
      simp only [hme, Option.getD_some]
    have hck1 : (checkRateLimit cfg m now host).1 =
        mapSet m (normalizeHost host) (checkEntry cfg e now).1 := by
      rw [hck]
    have hck2 : (checkRateLimit cfg m now host).2 = (checkEntry cfg e now).2 := by
      rw [hck]
    have hstep := checkEntry_inv cfg hW A lastT now e hle hI hB
    constructor
    · intro h
      rw [hck2] at h
      rw [hck1]
      obtain ⟨hInv, hWB⟩ := hstep.1 h
      exact ⟨Or.inr ⟨_, mapGet_mapSet_self _ _ _, hInv⟩, hWB⟩
    · intro h
      rw [hck2] at h
      rw [hck1]
      obtain ⟨hInv, hWB⟩ := hstep.2 h
      exact ⟨Or.inr ⟨_, mapGet_mapSet_self _ _ _, hInv⟩, hWB⟩

/-- Folding `checkRateLimit` over a nondecreasing list of call times keeps the
rolling-window bound on the collected allowed times. -/
theorem runChecks_aux (cfg : RateLimitConfig)
    (hen : cfg.enableRateLimiting = true)
    (hW : cfg.windowSizeMs ≤ cfg.blockDurationMs) (host : String) :
    ∀ (ts : List Nat) (m : RLMap) (A : List Nat) (lastT : Nat),
      List.Chain' (fun a b => a ≤ b) (lastT :: ts) →
      StInv cfg (normalizeHost host) m A lastT →
      windowBound cfg A →
      windowBound cfg (A ++ allowedTimes ts (runChecks cfg host m ts).2) := by
  intro ts
  induction ts with
  | nil =>
    intro m A lastT _ _ hB
    simpa [runChecks, allowedTimes] using hB
  | cons t ts ih =>
    intro m A lastT hchain hSt hB
    have h1 : lastT ≤ t := (List.chain'_cons.mp hchain).1
    have hchain2 := (List.chain'_cons.mp hchain).2
    have hstep := checkRateLimit_inv cfg hen hW host m A lastT t h1 hSt hB
    have hrun : (runChecks cfg host m (t :: ts)).2 =
        (checkRateLimit cfg m t host).2.allowed ::
          (runChecks cfg host (checkRateLimit cfg m t host).1 ts).2 := rfl
    cases hall : (checkRateLimit cfg m t host).2.allowed with
    | true =>
      obtain ⟨hSt2, hB2⟩ := hstep.1 hall
      have hrec := ih (checkRateLimit cfg m t host).1 (A ++ [t]) t hchain2 hSt2 hB2
      rw [hrun, hall]
      have hat : allowedTimes (t :: ts)
          (true :: (runChecks cfg host (checkRateLimit cfg m t host).1 ts).2) =
          t :: allowedTimes ts (runChecks cfg host (checkRateLimit cfg m t host).1 ts).2 := by
        simp [allowedTimes]
      rw [hat]
      have hassoc : A ++ t :: allowedTimes ts
          (runChecks cfg host (checkRateLimit cfg m t host).1 ts).2 =
          (A ++ [t]) ++ allowedTimes ts
            (runChecks cfg host (checkRateLimit cfg m t host).1 ts).2 := by
        simp
      rw [hassoc]
      exact hrec
    | false =>
      obtain ⟨hSt2, hB2⟩ := hstep.2 hall
      have hrec := ih (checkRateLimit cfg m t host).1 A t hchain2 hSt2 hB2
      rw [hrun, hall]
      have hat : allowedTimes (t :: ts)
          (false :: (runChecks cfg host (checkRateLimit cfg m t host).1 ts).2) =
          allowedTimes ts (runChecks cfg host (checkRateLimit cfg m t host).1 ts).2 := by
        simp [allowedTimes]
      rw [hat]
      exact hrec

end RateLimit

namespace RateLimit

/-- **C2 (amended)**: with rate limiting enabled and a cooldown lasting at
least one window (`windowSizeMs ≤ blockDurationMs` — satisfied by the source
defaults 60 s / 5 min), `checkRateLimit` satisfies, for every device key:
(a) over any nondecreasing sequence of calls for one host, at most
`maxRequestsPerWindow` calls are allowed within any rolling window
`(t − windowSizeMs, t]`; (b) a check that finds the window already holding
`maxRequestsPerWindow` requests is denied with
`retryAfter = Math.ceil(blockDurationMs / 1000)` and flips the entry to
blocked with the block start recorded; (c) while blocked and within
`blockDurationMs` of the block start, every call is denied with the remaining
cooldown, regardless of the window's contents.  Without
`windowSizeMs ≤ blockDurationMs` part (a) fails (see the counterexample):
the block-expiry reset clears the request list early. -/
theorem checkRateLimit_window_property (cfg : RateLimitConfig)
    (hen : cfg.enableRateLimiting = true)
    (hW : cfg.windowSizeMs ≤ cfg.blockDurationMs) :
    (∀ (host : String) (times : List Nat),
        List.Chain' (fun a b => a ≤ b) times →
        windowBound cfg (allowedTimes times (runChecks cfg host [] times).2)) ∧
    (∀ (m : RLMap) (host : String) (now : Nat) (e : RLEntry),
        mapGet m (normalizeHost host) = some e → e.blocked = false →
        cfg.maxRequestsPerWindow ≤
          (e.requests.filter (fun ts => decide (now < ts + cfg.windowSizeMs))).length →
        (checkRateLimit cfg m now host).2 =
          ⟨false, some (ceilDiv1000 cfg.blockDurationMs)⟩ ∧
        mapGet (checkRateLimit cfg m now host).1 (normalizeHost host) =
          some { e with
            requests := e.requests.filter (fun ts => decide (now < ts + cfg.windowSizeMs)),
            blocked := true, windowStart := now }) ∧
    (∀ (m : RLMap) (host : String) (now : Nat) (e : RLEntry),
        mapGet m (normalizeHost host) = some e → e.blocked = true →
        now - e.windowStart < cfg.blockDurationMs →
        (checkRateLimit cfg m now host).2 =
          ⟨false, some (ceilDiv1000 (cfg.blockDurationMs - (now - e.windowStart)))⟩) := by
  refine ⟨?_, ?_, ?_⟩
  · -- (a) rolling-window bound over a whole trace
    intro host times hchain
    have h0 : List.Chain' (fun a b => a ≤ b) (0 :: times) := by
      cases times with
      | nil => simp
      | cons t ts => exact List.chain'_cons.mpr ⟨Nat.zero_le t, hchain⟩
    have hmain := runChecks_aux cfg hen hW host times [] [] 0 h0
      (Or.inl ⟨rfl, rfl⟩) (windowBound_nil cfg)
    simpa using hmain
  · -- (b) the check at the ceiling: denied and blocked
    intro m host now e hme hbl hmax
    have hck : checkRateLimit cfg m now host =
        (mapSet m (normalizeHost host) (checkEntry cfg e now).1,
          (checkEntry cfg e now).2) := by
      unfold checkRateLimit
      rw [if_neg (by simp [hen])]
      simp only [hme, Option.getD_some]
    have hck1 : (checkRateLimit cfg m now host).1 =
        mapSet m (normalizeHost host) (checkEntry cfg e now).1 := by rw [hck]
    have hck2 : (checkRateLimit cfg m now host).2 = (checkEntry cfg e now).2 := by
      rw [hck]
    have hce : checkEntry cfg e now =
        ({ e with
            requests := e.requests.filter (fun ts => decide (now < ts + cfg.windowSizeMs)),
            blocked := true, windowStart := now },
          ⟨false, some (ceilDiv1000 cfg.blockDurationMs)⟩) := by
      unfold checkEntry
      rw [if_neg (by simp [hbl])]
      simp only [if_neg (by simp [hbl] : ¬ e.blocked = true), if_pos hmax]
    constructor
    · rw [hck2, hce]
    · rw [hck1, hce]
      exact mapGet_mapSet_self m (normalizeHost host) _
  · -- (c) blocked and cooling down: denied with the remaining cooldown
    intro m host now e hme hbl hlt
    have hck2 : (checkRateLimit cfg m now host).2 = (checkEntry cfg e now).2 := by
      unfold checkRateLimit
      rw [if_neg (by simp [hen])]
      simp only [hme, Option.getD_some]
    have hce : checkEntry cfg e now =
        (e, ⟨false, some (ceilDiv1000 (cfg.blockDurationMs - (now - e.windowStart)))⟩) := by
      unfold checkEntry
      rw [if_pos ⟨hbl, hlt⟩]
    rw [hck2, hce]

/-- The spec's scenario configuration:
`{maxRequestsPerWindow: 2, windowSizeMs: 2000, blockDurationMs: 2000}`. -/
def scenarioCfg : RateLimitConfig :=
  { maxRequestsPerWindow := 2, windowSizeMs := 2000, blockDurationMs := 2000,
    enableRateLimiting := true }

/-- A configuration whose cooldown (1 s) is shorter than its window (10 s). -/
def shortBlockCfg : RateLimitConfig :=
  { maxRequestsPerWindow := 2, windowSizeMs := 10000, blockDurationMs := 1000,
    enableRateLimiting := true }

/-- Witness for C2 (amended): under the spec's scenario configuration, a host
whose window already holds 2 request timestamps is denied with
`retryAfter = 2` seconds. -/
theorem checkRateLimit_window_property_witness :
    scenarioCfg.enableRateLimiting = true ∧
    scenarioCfg.windowSizeMs ≤ scenarioCfg.blockDurationMs ∧
    (checkRateLimit scenarioCfg [("host-a", ⟨"host-a", [0, 100], 0, false⟩)]
      200 "host-a").2 = ⟨false, some 2⟩ :=
  ⟨rfl, by decide,
    ((checkRateLimit_window_property scenarioCfg rfl (by decide)).2.1
      [("host-a", ⟨"host-a", [0, 100], 0, false⟩)] "host-a" 200
      ⟨"host-a", [0, 100], 0, false⟩ (by decide) rfl (by decide)).1⟩

/-- **C2 (counterexample)**: with `blockDurationMs < windowSizeMs`
(`{maxRequestsPerWindow: 2, windowSizeMs: 10000, blockDurationMs: 1000}`),
the call trace 0, 1000, 2000, 3100, 3200 for one host gets 4 calls allowed
inside the single rolling window `(−6800, 3200]` — the denial at 2000 starts
a 1 s block whose expiry at 3100 clears the recorded request list, forgetting
the allowed calls at 0 and 1000.  This refutes the unconditional rolling
window bound as stated. -/
theorem checkRateLimit_window_counterexample :
    shortBlockCfg.maxRequestsPerWindow = 2 ∧
    ((allowedTimes [0, 1000, 2000, 3100, 3200]
        (runChecks shortBlockCfg "h" [] [0, 1000, 2000, 3100, 3200]).2).filter
      (fun a => decide (3200 < a + shortBlockCfg.windowSizeMs ∧ a ≤ 3200))).length = 4 ∧
    ¬ windowBound shortBlockCfg
        (allowedTimes [0, 1000, 2000, 3100, 3200]
          (runChecks shortBlockCfg "h" [] [0, 1000, 2000, 3100, 3200]).2) :=
  ⟨by decide, by decide, fun h => by have h2 := h 3200; revert h2; decide⟩

end RateLimit

/-! ## Session pool (`src/utils/snmp/sessionManager.ts`, class `SnmpSessionManager`)
and credential fingerprinting (`src/utils/security/credentialUtils.ts`,
class `CredentialUtils`)

The opaque net-snmp handle stored in `SnmpSession.session` is modelled as
`Option Unit` — the pool only ever tests it for presence and calls `close`
on it (whose errors are swallowed). -/

namespace SessionPool

/-- Wrap an integer into the signed 32-bit range, as JS `x & x` (ToInt32)
does. -/
def toInt32 (n : Int) : Int := (n + 2 ^ 31) % 2 ^ 32 - 2 ^ 31

/-- One iteration of the `simpleChecksum` loop:
`hash = ((hash << 5) - hash) + charCode; hash = hash & hash`.  The shift
operates on the 32-bit value of `hash` (already in range), wrapping to 32
bits; the subtraction and addition are exact in doubles; the final `& `
coerces back to a signed 32-bit value. -/
def checksumStep (h : Int) (c : Nat) : Int :=
  toInt32 (toInt32 (h * 32) - h + c)

/-- `CredentialUtils.simpleChecksum`: fold the step over the UTF-16 code
units, then `Math.abs`. -/
def simpleChecksum (s : String) : Nat :=
  (s.data.foldl (fun h c => checksumStep h c.toNat) 0).natAbs

/-- One digit of `Number.prototype.toString(36)`. -/
def base36Char (n : Nat) : Char :=
  if n < 10 then Char.ofNat (48 + n) else Char.ofNat (87 + n)

/-- Fuel-driven digit accumulator for `toBase36` (the fuel `n + 1` always
suffices since the argument shrinks by a factor of 36 per step). -/
def toBase36Aux : Nat → Nat → List Char → List Char
  | 0, _, acc => acc
  | fuel + 1, n, acc =>
    if n = 0 then acc else toBase36Aux fuel (n / 36) (base36Char (n % 36) :: acc)

/-- `Number.prototype.toString(36)` on a nonnegative integer. -/
def toBase36 (n : Nat) : String :=
  if n = 0 then "0" else ⟨toBase36Aux (n + 1) n []⟩

/-- `simpleHash`: base-36 rendering of `simpleChecksum`. -/
def simpleHash (s : String) : String := toBase36 (simpleChecksum s)

/-- `SessionKey` from `SessionTypes.ts` (the fields consumed by
`createSessionKey` and `createCredentialHash`). -/
structure SessionKey where
  host : String
  port : Nat
  version : String
  community : String
deriving DecidableEq

/-- `CredentialUtils.createCredentialHash`: hash of
`host.toLowerCase() : version : (port || 161) : community-length :
community-checksum` — the community string enters only through its length
and checksum. -/
def createCredentialHash (credentials : SessionKey) (host : String) : String :=
  simpleHash
    (jsToLower host ++ ":" ++ credentials.version ++ ":" ++
      toString (if credentials.port = 0 then 161 else credentials.port) ++ ":" ++
      toString (if credentials.community = "" then 0 else credentials.community.data.length) ++ ":" ++
      toString (if credentials.community = "" then 0 else simpleChecksum credentials.community))

/-- `createSessionKey`:
`` `${key.host}:${key.port}:${key.version}:${credentialHash}` ``. -/
def createSessionKey (key : SessionKey) : String :=
  key.host ++ ":" ++ toString key.port ++ ":" ++ key.version ++ ":" ++
    createCredentialHash key key.host

/-- `SnmpSession` from `SessionTypes.ts`. -/
structure SnmpSession where
  id : String
  host : String
  community : String
  version : String
  port : Nat
  createdAt : Nat
  lastUsed : Nat
  requestCount : Nat
  active : Bool
  session : Option Unit
deriving DecidableEq

/-- `SessionPoolConfig` from `SessionTypes.ts`. -/
structure SessionPoolConfig where
  maxSessions : Nat
  sessionTimeout : Nat
  cleanupInterval : Nat
  maxRequestsPerSession : Nat
  enableMetrics : Bool
deriving DecidableEq

/-- The private `sessions : Map<string, SnmpSession>`. -/
abbrev Pool := List (String × SnmpSession)

/-- `isSessionValid`: idle time within `sessionTimeout`, request count within
`maxRequestsPerSession`, underlying handle still present. -/
def isSessionValid (cfg : SessionPoolConfig) (now : Nat) (s : SnmpSession) : Bool :=
  if cfg.sessionTimeout < now - s.lastUsed then false
  else if cfg.maxRequestsPerSession < s.requestCount then false
  else if s.session = none then false
  else true

/-- `findSessionKey`: the map key of the session with the given id. -/
def findSessionKey (pool : Pool) (sid : String) : Option String :=
  (pool.find? (fun kv => kv.2.id = sid)).map (fun kv => kv.1)

/-- `closeSession`: look the session up by id, close its handle (handle-close
errors are swallowed in the source — cleanup never throws, so the model is a
pure map update) and delete its pool entry. -/
def closeSession (pool : Pool) (sid : String) : Pool :=
  match pool.find? (fun kv => kv.2.id = sid) with
  | none => pool
  | some _ => mapDelete pool ((findSessionKey pool sid).getD "")

/-- `evictOldestSession`: scan for the inactive session with the strictly
smallest `lastUsed` (starting from `Date.now()`); close it, or throw the
pool-saturated capacity error when every session is active. -/
def evictOldestSession (pool : Pool) (now : Nat) : Except String Pool :=
  let best := pool.foldl
    (fun (best : Option SnmpSession × Nat) kv =>
      if kv.2.active = false ∧ kv.2.lastUsed < best.2 then (some kv.2, kv.2.lastUsed)
      else best)
    (none, now)
  match best.1 with
  | some s => .ok (closeSession pool s.id)
  | none => .error "Cannot create new session: pool is full and all sessions are active"

/-- `createNewSession`: build the session record (fresh id from the counter,
timestamps at `now`, request count 0, inactive, handle owned) and register it
under the session key.  Handle-factory failure (the `net-snmp`
`createSession` call throwing) is outside the modelled state machine. -/
def createNewSession (pool : Pool) (now idc : Nat)
    (key : SessionKey) : Pool × SnmpSession :=
  let s : SnmpSession :=
    { id := "session_" ++ toString (idc + 1) ++ "_" ++ toString now,
      host := key.host, community := key.community, version := key.version,
      port := key.port, createdAt := now, lastUsed := now, requestCount := 0,
      active := false, session := some () }
  (mapSet pool (createSessionKey key) s, s)

/-- The creation half of `getSession`: enforce the pool ceiling (evicting the
least-recently-used inactive session, or failing with the capacity error
when none exists), then create and register a new session. -/
def getSessionCreate (cfg : SessionPoolConfig) (pool : Pool) (now idc : Nat)
    (key : SessionKey) : Pool × Except String SnmpSession :=
  if cfg.maxSessions ≤ pool.length then
    match evictOldestSession pool now with
    | .error msg => (pool, .error msg)
    | .ok pool1 =>
      let r := createNewSession pool1 now idc key
      (r.1, .ok r.2)
  else
    let r := createNewSession pool now idc key
    (r.1, .ok r.2)

/-- `getSession`: return the pooled session (bumping `lastUsed`) when it
passes `isSessionValid`; otherwise close the stale entry and fall through to
the capacity check and creation path. -/
def getSession (cfg : SessionPoolConfig) (pool : Pool) (now idc : Nat)
    (key : SessionKey) : Pool × Except String SnmpSession :=
  match mapGet pool (createSessionKey key) with
  | some existing =>
    if isSessionValid cfg now existing then
      (mapSet pool (createSessionKey key) { existing with lastUsed := now },
        .ok { existing with lastUsed := now })
    else
      getSessionCreate cfg (closeSession pool existing.id) now idc key
  | none => getSessionCreate cfg pool now idc key

end SessionPool

instance {ε α : Type} [DecidableEq ε] [DecidableEq α] : DecidableEq (Except ε α)
  | .error a, .error b =>
    if h : a = b then isTrue (by rw [h]) else isFalse (fun hc => h (Except.error.inj hc))
  | .error _, .ok _ => isFalse (fun hc => Except.noConfusion hc)
  | .ok _, .error _ => isFalse (fun hc => Except.noConfusion hc)
  | .ok a, .ok b =>
    if h : a = b then isTrue (by rw [h]) else isFalse (fun hc => h (Except.ok.inj hc))

namespace SessionPool

/-- The oldest-inactive scan returns its initial accumulator when every
pooled session is active. -/
theorem foldl_oldest_all_active :
    ∀ (pool : Pool) (init : Option SnmpSession × Nat),
      (∀ kv ∈ pool, kv.2.active = true) →
      pool.foldl
        (fun (best : Option SnmpSession × Nat) kv =>
          if kv.2.active = false ∧ kv.2.lastUsed < best.2 then (some kv.2, kv.2.lastUsed)
          else best) init = init := by
  intro pool
  induction pool with
  | nil => intro init _; rfl
  | cons kv rest ih =>
    intro init hact
    have h1 : kv.2.active = true := hact kv (List.mem_cons_self _ _)
    have h2 : ¬ (kv.2.active = false ∧ kv.2.lastUsed < init.2) := by simp [h1]
    show List.foldl _
      (if kv.2.active = false ∧ kv.2.lastUsed < init.2 then (some kv.2, kv.2.lastUsed)
        else init) rest = init
    rw [if_neg h2]
    exact ih init (fun q hq => hact q (List.mem_cons_of_mem _ hq))

/-- `evictOldestSession` throws the capacity error when every session is
active. -/
theorem evictOldestSession_all_active (pool : Pool) (now : Nat)
    (hact : ∀ kv ∈ pool, kv.2.active = true) :
    evictOldestSession pool now =
      .error "Cannot create new session: pool is full and all sessions are active" := by
  unfold evictOldestSession
  rw [foldl_oldest_all_active pool (none, now) hact]

/-- **C4**: when the pool holds `maxSessions` sessions, all of them active,
and the requested key is not pooled, `getSession` fails with the capacity
error naming the saturated pool, and returns with the pool unchanged — no
active session is evicted or closed. -/
theorem getSession_capacity_error (cfg : SessionPoolConfig) (pool : Pool)
    (now idc : Nat) (key : SessionKey)
    (hfull : pool.length = cfg.maxSessions)
    (hmiss : mapGet pool (createSessionKey key) = none)
    (hact : ∀ kv ∈ pool, kv.2.active = true) :
    getSession cfg pool now idc key =
      (pool, .error "Cannot create new session: pool is full and all sessions are active") := by
  unfold getSession
  rw [hmiss]
  show getSessionCreate cfg pool now idc key = _
  unfold getSessionCreate
  rw [if_pos (by omega), evictOldestSession_all_active pool now hact]

/-- Pool configuration with `maxSessions := 1`. -/
def capOnePoolCfg : SessionPoolConfig := ⟨1, 300000, 60000, 1000, true⟩

/-- An active pooled session. -/
def busySession : SnmpSession :=
  ⟨"session_1_0", "h1", "public", "2c", 161, 0, 0, 0, true, some ()⟩

/-- Witness for C4: a pool of one active session at `maxSessions = 1`
rejects an acquire for a fresh key with the capacity error. -/
theorem getSession_capacity_error_witness :
    [("k1", busySession)].length = capOnePoolCfg.maxSessions ∧
    mapGet [("k1", busySession)] (createSessionKey ⟨"h2", 161, "2c", "public"⟩) = none ∧
    (∀ kv ∈ [("k1", busySession)], kv.2.active = true) ∧
    getSession capOnePoolCfg [("k1", busySession)] 50 1 ⟨"h2", 161, "2c", "public"⟩ =
      ([("k1", busySession)],
        .error "Cannot create new session: pool is full and all sessions are active") :=
  ⟨by decide, by decide, by decide,
    getSession_capacity_error capOnePoolCfg [("k1", busySession)] 50 1
      ⟨"h2", 161, "2c", "public"⟩ (by decide) (by decide) (by decide)⟩

/-- The session registered by `createNewSession` is stored under the session
key with fresh timestamps. -/
theorem createNewSession_state (pool : Pool) (now idc : Nat) (key : SessionKey) :
    mapGet (createNewSession pool now idc key).1 (createSessionKey key) =
      some (createNewSession pool now idc key).2 ∧
    (createNewSession pool now idc key).2.lastUsed = now := by
  unfold createNewSession
  exact ⟨mapGet_mapSet_self _ _ _, rfl⟩

/-- Whatever path `getSessionCreate` takes to an `ok` result, the returned
session is stored under the session key and has `lastUsed = now`. -/
theorem getSessionCreate_ok_state (cfg : SessionPoolConfig) (pool pool1 : Pool)
    (now idc : Nat) (key : SessionKey) (s : SnmpSession)
    (h : getSessionCreate cfg pool now idc key = (pool1, .ok s)) :
    mapGet pool1 (createSessionKey key) = some s ∧ s.lastUsed = now := by
  unfold getSessionCreate at h
  by_cases hful : cfg.maxSessions ≤ pool.length
  · rw [if_pos hful] at h
    cases hev : evictOldestSession pool now with
    | error msg =>
      rw [hev] at h
      have h2 := congrArg Prod.snd h
      simp at h2
    | ok pool2 =>
      rw [hev] at h
      have h1 := congrArg Prod.fst h
      have h2 := congrArg Prod.snd h
      simp only at h1 h2
      have h3 : (createNewSession pool2 now idc key).2 = s := Except.ok.inj h2
      rw [← h1, ← h3]
      exact createNewSession_state pool2 now idc key
  · rw [if_neg hful] at h
    have h1 := congrArg Prod.fst h
    have h2 := congrArg Prod.snd h
    simp only at h1 h2
    have h3 : (createNewSession pool now idc key).2 = s := Except.ok.inj h2
    rw [← h1, ← h3]
    exact createNewSession_state pool now idc key

/-- Whatever path `getSession` takes to an `ok` result, the returned session
is stored under the session key and has `lastUsed = now`. -/
theorem getSession_ok_state (cfg : SessionPoolConfig) (pool pool1 : Pool)
    (now idc : Nat) (key : SessionKey) (s : SnmpSession)
    (h : getSession cfg pool now idc key = (pool1, .ok s)) :
    mapGet pool1 (createSessionKey key) = some s ∧ s.lastUsed = now := by
  cases hm : mapGet pool (createSessionKey key) with
  | some existing =>
    have hgs : getSession cfg pool now idc key =
        if isSessionValid cfg now existing = true then
          (mapSet pool (createSessionKey key) { existing with lastUsed := now },
            .ok { existing with lastUsed := now })
        else getSessionCreate cfg (closeSession pool existing.id) now idc key := by
      unfold getSession
      rw [hm]
    rw [hgs] at h
    by_cases hv : isSessionValid cfg now existing = true
    · rw [if_pos hv] at h
      have h1 := congrArg Prod.fst h
      have h2 := congrArg Prod.snd h
      simp only at h1 h2
      have h3 : ({ existing with lastUsed := now } : SnmpSession) = s := Except.ok.inj h2
      rw [← h1, ← h3]
      exact ⟨mapGet_mapSet_self _ _ _, rfl⟩
    · rw [if_neg hv] at h
      exact getSessionCreate_ok_state cfg _ pool1 now idc key s h
  | none =>
    have hgs : getSession cfg pool now idc key =
        getSessionCreate cfg pool now idc key := by
      unfold getSession
      rw [hm]
    rw [hgs] at h
    exact getSessionCreate_ok_state cfg pool pool1 now idc key s h

/-- **C6**: after a `getSession` call at `now1` returned session `s`, a
second `getSession` with the identical key at `now2` — with idle time within
`sessionTimeout`, request count under `maxRequestsPerSession` and the handle
still present — returns the same pooled session record, changed only in its
`lastUsed` time, and the pool is updated only at that key. -/
theorem getSession_reuse (cfg : SessionPoolConfig) (pool pool1 : Pool)
    (key : SessionKey) (now1 now2 idc : Nat) (s : SnmpSession)
    (hfirst : getSession cfg pool now1 idc key = (pool1, .ok s))
    (hidle : now2 - now1 ≤ cfg.sessionTimeout)
    (hreq : s.requestCount < cfg.maxRequestsPerSession)
    (hhandle : s.session.isSome = true) :
    getSession cfg pool1 now2 idc key =
      (mapSet pool1 (createSessionKey key) { s with lastUsed := now2 },
        .ok { s with lastUsed := now2 }) := by
  obtain ⟨hmem, hlast⟩ := getSession_ok_state cfg pool pool1 now1 idc key s hfirst
  have hv : isSessionValid cfg now2 s = true := by
    unfold isSessionValid
    rw [if_neg (by rw [hlast]; omega), if_neg (by omega),
      if_neg (Option.ne_none_iff_isSome.mpr hhandle)]
  have hgs : getSession cfg pool1 now2 idc key =
      if isSessionValid cfg now2 s = true then
        (mapSet pool1 (createSessionKey key) { s with lastUsed := now2 },
          .ok { s with lastUsed := now2 })
      else getSessionCreate cfg (closeSession pool1 s.id) now2 idc key := by
    unfold getSession
    rw [hmem]
  rw [hgs, if_pos hv]

end SessionPool

namespace SessionPool

/-- Pool configuration with the source defaults. -/
def reusePoolCfg : SessionPoolConfig := ⟨100, 300000, 60000, 1000, true⟩

/-- A demo session key. -/
def demoKey : SessionKey := ⟨"h", 161, "2c", "public"⟩

/-- The session `getSession` creates for `demoKey` on an empty pool at time 0
with counter 0. -/
def demoSession : SnmpSession :=
  ⟨"session_1_0", "h", "public", "2c", 161, 0, 0, 0, false, some ()⟩

/-- The pool after that first acquire. -/
def demoPool : Pool := [(createSessionKey demoKey, demoSession)]

/-- Witness for C6: an acquire at time 0 creates `demoSession`; the second
acquire at time 5 (idle 5 ms ≤ 5 min, 0 requests < 1000, handle present)
returns the same record with only `lastUsed` changed. -/
theorem getSession_reuse_witness :
    getSession reusePoolCfg [] 0 0 demoKey = (demoPool, .ok demoSession) ∧
    5 - 0 ≤ reusePoolCfg.sessionTimeout ∧
    demoSession.requestCount < reusePoolCfg.maxRequestsPerSession ∧
    demoSession.session.isSome = true ∧
    getSession reusePoolCfg demoPool 5 0 demoKey =
      (mapSet demoPool (createSessionKey demoKey) { demoSession with lastUsed := 5 },
        .ok { demoSession with lastUsed := 5 }) :=
  ⟨by decide, by decide, by decide, by decide,
    getSession_reuse reusePoolCfg [] demoPool demoKey 0 5 0 demoSession
      (by decide) (by decide) (by decide) (by decide)⟩

/-- `needle` occurs as a contiguous character run inside `hay`. -/
def occursIn : List Char → List Char → Bool
  | needle, [] => needle.isEmpty
  | needle, c :: cs => needle.isPrefixOf (c :: cs) || occursIn needle cs

/-- Strings with equal character lists are equal. -/
theorem stringEqOfData {a b : String} (h : a.data = b.data) : a = b := by
  cases a; cases b; simp only at h; rw [h]

/-- **C9 (amended)**: the pool key depends on the community string only
through its length and checksum: two credential sets agreeing on host,
version and port whose communities have equal length and equal
`simpleChecksum` produce the identical pool key.  (The raw community can
still appear in the key as a coincidental substring of the host, port or
version text — see the counterexample — but the credential-hash component
never embeds it.) -/
theorem createSessionKey_fingerprint (c1 c2 : SessionKey)
    (hhost : c1.host = c2.host) (hver : c1.version = c2.version)
    (hport : c1.port = c2.port)
    (hlen : c1.community.data.length = c2.community.data.length)
    (hsum : simpleChecksum c1.community = simpleChecksum c2.community) :
    createSessionKey c1 = createSessionKey c2 := by
  have hiff : (c1.community = "") ↔ (c2.community = "") := by
    constructor
    · intro h
      apply stringEqOfData
      have h0 : c2.community.data.length = 0 := by
        rw [← hlen, h]
        rfl
      simpa using List.length_eq_zero.mp h0
    · intro h
      apply stringEqOfData
      have h0 : c1.community.data.length = 0 := by
        rw [hlen, h]
        rfl
      simpa using List.length_eq_zero.mp h0
  have hlen' : (if c1.community = "" then (0 : Nat) else c1.community.data.length) =
      (if c2.community = "" then (0 : Nat) else c2.community.data.length) := by
    by_cases h1 : c1.community = ""
    · rw [if_pos h1, if_pos (hiff.mp h1)]
    · rw [if_neg h1, if_neg (fun h2 => h1 (hiff.mpr h2)), hlen]
  have hsum' : (if c1.community = "" then (0 : Nat) else simpleChecksum c1.community) =
      (if c2.community = "" then (0 : Nat) else simpleChecksum c2.community) := by
    by_cases h1 : c1.community = ""
    · rw [if_pos h1, if_pos (hiff.mp h1)]
    · rw [if_neg h1, if_neg (fun h2 => h1 (hiff.mpr h2)), hsum]
  unfold createSessionKey createCredentialHash
  rw [hhost, hver, hport, hlen', hsum']

/-- **C9 (counterexample)**: the raw community string can occur as a
substring of the pool key: with community `"1"`, host `"h"`, port 161,
version `"2c"`, the key `h:161:2c:<hash>` contains `"1"` (inside the port
text).  This refutes the clause that the raw community never appears as a
substring of the key. -/
theorem createSessionKey_substring_counterexample :
    (⟨"h", 161, "2c", "1"⟩ : SessionKey).community = "1" ∧
    occursIn ("1".data) ((createSessionKey ⟨"h", 161, "2c", "1"⟩).data) = true :=
  ⟨rfl, by decide⟩

/-- Witness for C9 (amended): the distinct communities `"az"` and `"b["`
share length 2 and checksum 3129, and produce the identical session key. -/
theorem createSessionKey_fingerprint_witness :
    ("az" : String) ≠ "b[" ∧
    ("az" : String).data.length = ("b[" : String).data.length ∧
    simpleChecksum "az" = simpleChecksum "b[" ∧
    createSessionKey ⟨"h", 161, "2c", "az"⟩ = createSessionKey ⟨"h", 161, "2c", "b["⟩ :=
  ⟨by decide, by decide, by decide,
    createSessionKey_fingerprint ⟨"h", 161, "2c", "az"⟩ ⟨"h", 161, "2c", "b["⟩
      rfl rfl rfl (by decide) (by decide)⟩

end SessionPool

/-! ## Trap listeners

Two entry points share the datagram-handling shape: the batch collector
`snmpTrapReceiver` (`nodes/Snmp/GenericFunctions.ts`) and the continuous
trigger `SnmpTrapTrigger.trigger` (`nodes/SnmpTrapTrigger/SnmpTrapTrigger.node.ts`).
`Date.now()`, `Math.random()` id suffixes and the bound socket are passed or
threaded explicitly; emitting is modelled as the list of items produced for
one datagram. -/

namespace Trap

/-- Digits-to-number accumulator for `parseInt(p, 10)`. -/
def digitsToNat (cs : List Char) : Nat :=
  cs.foldl (fun acc c => acc * 10 + (c.toNat - 48)) 0

/-- JS `parseInt(s, 10)`: skip leading whitespace, optional sign, longest
digit run; `NaN` (here `none`) when no digit follows. -/
def jsParseIntDec (s : String) : Option Int :=
  let core := fun (l : List Char) (sign : Int) =>
    let ds := l.takeWhile Char.isDigit
    if ds.isEmpty then none else some (sign * (digitsToNat ds : Int))
  match s.data.dropWhile isJsSpace with
  | '-' :: rest => core rest (-1)
  | '+' :: rest => core rest 1
  | l => core l 1

/-- `ipToLong` (identical inner helper in both listeners): split on `.`,
`parseInt` each part, demand exactly 4 parts in 0..255, then
`((p0 << 24) >>> 0) + (p1 << 16) + (p2 << 8) + p3`; the source returns `-1`
for invalid input, modelled as `none`. -/
def ipToLong (ip : String) : Option Nat :=
  let parts := (jsSplit ip '.').map jsParseIntDec
  if parts.length = 4 ∧
      parts.all (fun p => match p with
        | none => false
        | some n => decide (0 ≤ n ∧ n ≤ 255)) then
    match parts with
    | [some a, some b, some c, some d] =>
      some (a.toNat * 2 ^ 24 + b.toNat * 2 ^ 16 + c.toNat * 2 ^ 8 + d.toNat)
    | _ => none
  else none

/-- One iteration of the rule loop shared by `isSourceAllowed` and
`isAllowedSource`: skip blank rules; a rule containing `/` is matched as an
IPv4 CIDR block by masked-integer comparison (`(src & mask) === (base & mask)`,
identical on the unsigned values); any other rule by exact string equality
with the raw source address. -/
def ruleMatches (sourceAddress : String) (src : Nat) (rule : String) : Bool :=
  let trimmed := jsTrim rule
  if trimmed = "" then false
  else if jsIncludesChar trimmed '/' then
    let parts := jsSplit trimmed '/'
    let base := parts.headD ""
    let pstr := (parts.drop 1).headD ""
    match ipToLong base, jsParseIntDec pstr with
    | some baseLong, some p =>
      if p < 0 ∨ 32 < p then false
      else
        let mask := if p = 0 then 0 else 2 ^ 32 - 2 ^ (32 - p.toNat)
        decide (Nat.land src mask = Nat.land baseLong mask)
    | _, _ => false
  else decide (sourceAddress = trimmed)

/-- `isSourceAllowed` from `GenericFunctions.ts`: empty filter admits all;
unparseable source addresses are dropped; otherwise any rule may admit. -/
def isSourceAllowed (sourceAddress : String) (allowedSources : List String) : Bool :=
  if allowedSources.isEmpty then true
  else
    match ipToLong sourceAddress with
    | none => false
    | some src => allowedSources.any (fun rule => ruleMatches sourceAddress src rule)

/-- `isAllowedSource` from `SnmpTrapTrigger.node.ts` — the trigger's copy of
the same logic. -/
def isAllowedSource (addr : String) (allowedSources : List String) : Bool :=
  if allowedSources.isEmpty then true
  else
    match ipToLong addr with
    | none => false
    | some src => allowedSources.any (fun rule => ruleMatches addr src rule)

/-- One inbound UDP datagram (`msg`, `rinfo`). -/
structure Datagram where
  address : String
  port : Nat
  data : List Nat
deriving DecidableEq

/-- A variable binding as far as the listeners inspect one (`vb.oid`). -/
structure TriggerVarbind where
  oid : String
deriving DecidableEq

/-- The record produced by the receiver's built-in `parseSnmpMessage`. -/
structure TrapPdu where
  pduType : String
  version : Nat
  community : String
  enterprise : String
  agentAddr : String
  genericTrap : Nat
  specificTrap : Nat
  timestamp : Nat
  uptime : Nat
  varbinds : List TriggerVarbind
deriving DecidableEq

/-- `parseSnmpMessage`: rejects buffers under 10 bytes with a thrown error
(wrapped as `Failed to parse SNMP message: …`), otherwise yields the fixed
placeholder trap PDU with an empty varbind list. -/
def parseSnmpMessage (buffer : List Nat) (now : Nat) : Except String TrapPdu :=
  if buffer.length < 10 then
    .error "Failed to parse SNMP message: Error: Message too short for SNMP"
  else
    .ok { pduType := "trap", version := 1, community := "public",
          enterprise := "1.3.6.1.4.1.0", agentAddr := "0.0.0.0",
          genericTrap := 6, specificTrap := 0, timestamp := now, uptime := 0,
          varbinds := [] }

/-- `{ address, port }` of the datagram source. -/
structure SourceInfo where
  address : String
  port : Nat
deriving DecidableEq

/-- `SnmpTrapData` as assembled by `processTrapPdu`. -/
structure SnmpTrapData where
  source : SourceInfo
  pdu : TrapPdu
  receivedAt : Nat
  trapId : String
deriving DecidableEq

/-- `generateTrapId`: `` `trap-${Date.now()}-${random base-36 suffix}` ``;
the `Math.random()` suffix is passed explicitly. -/
def generateTrapId (now : Nat) (rnd : String) : String :=
  "trap-" ++ toString now ++ "-" ++ rnd

/-- `processTrapPdu`: wrap the parsed PDU (applying the `|| 'trap'` and
`|| 1` defaults) with the source, a receipt timestamp and a fresh trap id.
The per-varbind conversion loop is carried over unchanged — the built-in
parser always produces an empty varbind list. -/
def processTrapPdu (pdu : TrapPdu) (sourceInfo : SourceInfo) (now : Nat)
    (rnd : String) : SnmpTrapData :=
  { source := sourceInfo,
    pdu := { pdu with
      pduType := if pdu.pduType = "" then "trap" else pdu.pduType,
      version := if pdu.version = 0 then 1 else pdu.version },
    receivedAt := now,
    trapId := generateTrapId now rnd }

/-- The mutable state of one `snmpTrapReceiver` listener: the accumulated
batch, the trap counter, the listening flag. -/
structure ReceiverState where
  receivedTraps : List SnmpTrapData
  trapCount : Nat
  isListening : Bool
deriving DecidableEq

/-- The `try` body of the receiver's `message` handler: silently drop
disallowed sources; parse (which may throw); append the processed record and
bump the counter. -/
def receiverHandlerBody (allowedSources : List String) (st : ReceiverState)
    (msg : Datagram) (now : Nat) (rnd : String) : Except String ReceiverState :=
  if isSourceAllowed msg.address allowedSources = false then .ok st
  else
    match parseSnmpMessage msg.data now with
    | .error e => .error e
    | .ok pdu =>
      .ok { st with
        receivedTraps :=
          st.receivedTraps ++ [processTrapPdu pdu ⟨msg.address, msg.port⟩ now rnd],
        trapCount := st.trapCount + 1 }

/-- The installed `message` handler: the surrounding `catch` swallows any
processing error and leaves the listener state untouched, so the handler is
total and the socket stays open. -/
def receiverHandleMessage (allowedSources : List String) (st : ReceiverState)
    (msg : Datagram) (now : Nat) (rnd : String) : ReceiverState :=
  match receiverHandlerBody allowedSources st msg now rnd with
  | .ok st2 => st2
  | .error _ => st

end Trap

namespace Trap

/-- Printable-ASCII test used by the trigger's community scan
(`msg[i] >= 32 && msg[i] <= 126`). -/
def printable (b : Nat) : Bool := decide (32 ≤ b ∧ b ≤ 126)

/-- Lowercase hex digit. -/
def hexChar (n : Nat) : Char :=
  if n < 10 then Char.ofNat (48 + n) else Char.ofNat (87 + n)

/-- `Buffer.prototype.toString('hex')`. -/
def bytesToHex (bs : List Nat) : List Char :=
  (bs.map (fun b => [hexChar (b / 16 % 16), hexChar (b % 16)])).flatten

/-- Version-byte sniffing of the trigger's `parseTrapMessage`: when the
buffer exceeds 10 bytes, bytes 0/1/3 at index 1 select v1/v2c/v3, anything
else leaves the preset `'v2c'`. -/
def triggerVersion (data : List Nat) : String :=
  if 10 < data.length then
    let v := data.getD 1 0
    if v = 0 then "v1" else if v = 1 then "v2c" else if v = 3 then "v3" else "v2c"
  else "v2c"

/-- The community-scan loop (`for i = 2; i < min(len − 10, 50); i++`): track
where a printable run starts; at the first non-printable byte after a run,
stop and report the run `[s, i)`.  Runs that reach the loop bound are
discarded, as in the source.  Fuel-driven; `bound + 1` fuel always covers the
index range. -/
def scanCommunityAux (data : List Nat) (bound : Nat) :
    Nat → Nat → Option Nat → Option (Nat × Nat)
  | 0, _, _ => none
  | fuel + 1, i, start =>
    if bound ≤ i then none
    else if printable (data.getD i 0) then
      match start with
      | none => scanCommunityAux data bound fuel (i + 1) (some i)
      | some s => scanCommunityAux data bound fuel (i + 1) (some s)
    else
      match start with
      | none => scanCommunityAux data bound fuel (i + 1) none
      | some s => some (s, i)

/-- Community extraction of the trigger's `parseTrapMessage`: only for
non-v3 buffers over 20 bytes; a candidate run becomes the community when its
length is strictly between 0 and 20, otherwise `'public'` stays. -/
def triggerCommunity (data : List Nat) : String :=
  if triggerVersion data ≠ "v3" ∧ 20 < data.length then
    let bound := min (data.length - 10) 50
    match scanCommunityAux data bound (bound + 1) 2 none with
    | some (s, i) =>
      let possible : String := ⟨((data.drop s).take (i - s)).map (fun b => Char.ofNat b)⟩
      if 0 < possible.data.length ∧ possible.data.length < 20 then possible
      else "public"
    | none => "public"
  else "public"

/-- The trigger node's recognized options (empty string = option unset, as
the source tests them for JS truthiness). -/
structure TriggerOptions where
  allowedSources : List String
  filterOid : String
  filterCommunity : String
  includeRawPdu : Bool
deriving DecidableEq

/-- The record built by the trigger's `parseTrapMessage` (its internal
`try` never propagates — parse failures fall back to the preset defaults).
`timestampIso` carries the receipt time; `rawHex` is the hex dump truncated
to 200 characters. -/
structure TriggerTrapData where
  timestampIso : Nat
  source : SourceInfo
  family : String
  version : String
  community : String
  pduType : String
  pduTypeCode : Nat
  varbinds : List TriggerVarbind
  rawSize : Nat
  rawHex : String
  summaryVarbindCount : Nat
  summaryTrapType : String
  summaryVersion : String
  summaryMessageSize : Nat
  rawBuffer : Option (List Nat)
deriving DecidableEq

/-- The trigger's `parseTrapMessage`. -/
def parseTrapMessage (msg : Datagram) (family : String) (opts : TriggerOptions)
    (nowIso : Nat) : TriggerTrapData :=
  { timestampIso := nowIso,
    source := ⟨msg.address, msg.port⟩,
    family := family,
    version := triggerVersion msg.data,
    community := triggerCommunity msg.data,
    pduType := "TrapV2",
    pduTypeCode := 7,
    varbinds := [],
    rawSize := msg.data.length,
    rawHex := ⟨(bytesToHex msg.data).take 200⟩,
    summaryVarbindCount := 0,
    summaryTrapType := "TrapV2",
    summaryVersion := triggerVersion msg.data,
    summaryMessageSize := msg.data.length,
    rawBuffer := if opts.includeRawPdu then some msg.data else none }

/-- What the trigger emits for one datagram. -/
inductive TriggerEmit
  | trapItem (d : TriggerTrapData)
  | errorItem (message : String) (source : String)
deriving DecidableEq

/-- The `try` body of the trigger's `message` handler: silent drop on a
disallowed source, parse (total), community filter, OID-against-varbinds
filter, then emit the record. -/
def triggerHandlerBody (opts : TriggerOptions) (msg : Datagram)
    (family : String) (nowIso : Nat) : Except String (List TriggerTrapData) :=
  if isAllowedSource msg.address opts.allowedSources = false then .ok []
  else
    let trapData := parseTrapMessage msg family opts nowIso
    if opts.filterCommunity ≠ "" ∧ trapData.community ≠ opts.filterCommunity then
      .ok []
    else if opts.filterOid ≠ "" ∧
        trapData.varbinds.any (fun vb => jsStartsWith vb.oid opts.filterOid) = false then
      .ok []
    else .ok [trapData]

/-- The installed `message` handler: a caught error is emitted as an
`error: true` item instead of stopping the listener. -/
def triggerHandleMessage (opts : TriggerOptions) (msg : Datagram)
    (family : String) (nowIso : Nat) : List TriggerEmit :=
  match triggerHandlerBody opts msg family nowIso with
  | .ok items => items.map TriggerEmit.trapItem
  | .error e => [.errorItem ("Error processing trap: " ++ e) msg.address]

/-- The outcome of a listener-start attempt, before any socket is bound. -/
inductive StartDecision
  | reject (msg : String)
  | bind (port : Int)
deriving DecidableEq

/-- `options.port || 162`. -/
def effectivePort (portOpt : Int) : Int := if portOpt = 0 then 162 else portOpt

/-- The pre-bind validation of `snmpTrapReceiver`: default the port, reject
ports outside 1..65535, reject ports present in the process-wide
`activeTrapListeners` registry, otherwise proceed to bind. -/
def snmpTrapReceiverStart (portOpt : Int) (registry : List Int) : StartDecision :=
  let port := effectivePort portOpt
  if port < 1 ∨ 65535 < port then
    .reject ("Invalid port number: " ++ toString port ++
      ". Must be between 1 and 65535.")
  else if registry.contains port then
    .reject ("Port " ++ toString port ++
      " is already in use by another trap listener.")
  else .bind port

/-- The pre-bind validation of `SnmpTrapTrigger.trigger`: only the bind
address is validated (via `InputValidator.validateHost`, represented here by
its boolean verdict) and only when `validateSource` is not `false`; no port
range check and no registry lookup occur before `server.bind`. -/
def snmpTrapTriggerStart (port : Int) (bindAddress : String)
    (validateSource : Bool) (bindAddressValid : Bool) : StartDecision :=
  if validateSource = true ∧ bindAddressValid = false then
    .reject ("Invalid bind address: " ++ bindAddress)
  else .bind port

end Trap

namespace Trap

/-- **C3 (amended)**: the batch entry point `snmpTrapReceiver` rejects a
start when the (defaulted) port lies outside 1..65535 or is already owned in
the process-wide registry, and binds otherwise; the continuous entry point
`SnmpTrapTrigger.trigger` performs neither check — with bind-address
validation disabled it always proceeds to bind, whatever the port and
whatever listeners exist. -/
theorem snmpTrapReceiver_port_guard (portOpt : Int) (registry : List Int) :
    ((effectivePort portOpt < 1 ∨ 65535 < effectivePort portOpt) →
      snmpTrapReceiverStart portOpt registry =
        .reject ("Invalid port number: " ++ toString (effectivePort portOpt) ++
          ". Must be between 1 and 65535.")) ∧
    (¬ (effectivePort portOpt < 1 ∨ 65535 < effectivePort portOpt) →
      registry.contains (effectivePort portOpt) = true →
      snmpTrapReceiverStart portOpt registry =
        .reject ("Port " ++ toString (effectivePort portOpt) ++
          " is already in use by another trap listener.")) ∧
    (¬ (effectivePort portOpt < 1 ∨ 65535 < effectivePort portOpt) →
      registry.contains (effectivePort portOpt) = false →
      snmpTrapReceiverStart portOpt registry = .bind (effectivePort portOpt)) ∧
    (∀ (port : Int) (addr : String) (bv : Bool),
      snmpTrapTriggerStart port addr false bv = .bind port) := by
  refine ⟨?_, ?_, ?_, ?_⟩
  · intro h
    simp only [snmpTrapReceiverStart]
    rw [if_pos h]
  · intro h hmem
    simp only [snmpTrapReceiverStart]
    rw [if_neg h, if_pos hmem]
  · intro h hmem
    simp only [snmpTrapReceiverStart]
    rw [if_neg h, if_neg (by rw [hmem]; exact Bool.false_ne_true)]
  · intro port addr bv
    simp only [snmpTrapTriggerStart]
    rw [if_neg (by simp)]

/-- **C3 (counterexample)**: the trigger entry point performs no port or
registry validation: it proceeds to bind on port 70000 (outside 1..65535)
and on port 162 regardless of any existing listener (it takes no registry
into account at all), while the receiver entry point rejects both.  This
refutes the claim that both listener-start entry points reject such
starts. -/
theorem trapTrigger_start_counterexample :
    ((65535 : Int) < 70000) ∧
    snmpTrapTriggerStart 70000 "0.0.0.0" false true = .bind 70000 ∧
    snmpTrapTriggerStart 162 "0.0.0.0" true true = .bind 162 ∧
    snmpTrapReceiverStart 70000 [] =
      .reject "Invalid port number: 70000. Must be between 1 and 65535." ∧
    snmpTrapReceiverStart 162 [162] =
      .reject "Port 162 is already in use by another trap listener." := by
  refine ⟨by decide, by decide, by decide, by decide, by decide⟩

/-- Witness for C3 (amended): port 70000 is out of range and rejected by the
receiver; the trigger with validation off binds it. -/
theorem snmpTrapReceiver_port_guard_witness :
    (effectivePort 70000 < 1 ∨ 65535 < effectivePort 70000) ∧
    snmpTrapReceiverStart 70000 [] =
      .reject ("Invalid port number: " ++ toString (effectivePort 70000) ++
        ". Must be between 1 and 65535.") ∧
    snmpTrapTriggerStart 70000 "0.0.0.0" false true = .bind 70000 :=
  ⟨by decide, (snmpTrapReceiver_port_guard 70000 []).1 (by decide),
    (snmpTrapReceiver_port_guard 70000 []).2.2.2 70000 "0.0.0.0" true⟩

end Trap

namespace Trap

/-- **C7**: the trap source filter, in both listeners: an empty
`allowedSources` list admits every source; with `["10.0.0.0/8"]` a datagram
from 10.5.5.5 is accepted (the receiver appends exactly one record, the
trigger emits exactly one item) while one from 192.168.1.1 is dropped with
the state untouched, nothing emitted and no error raised; a rule containing
`/` matches by IPv4 address-to-integer conversion and masked-integer
comparison, and any other rule by exact string equality with the source
address. -/
theorem trap_source_filter_property :
    (∀ src : String, isSourceAllowed src [] = true) ∧
    (∀ src : String, isAllowedSource src [] = true) ∧
    (isSourceAllowed "10.5.5.5" ["10.0.0.0/8"] = true ∧
      isAllowedSource "10.5.5.5" ["10.0.0.0/8"] = true) ∧
    (isSourceAllowed "192.168.1.1" ["10.0.0.0/8"] = false ∧
      isAllowedSource "192.168.1.1" ["10.0.0.0/8"] = false) ∧
    (∀ (st : ReceiverState) (msg : Datagram) (now : Nat) (rnd : String),
      msg.address = "10.5.5.5" → 10 ≤ msg.data.length →
      (receiverHandleMessage ["10.0.0.0/8"] st msg now rnd).receivedTraps.length =
        st.receivedTraps.length + 1 ∧
      (receiverHandleMessage ["10.0.0.0/8"] st msg now rnd).isListening =
        st.isListening) ∧
    (∀ (st : ReceiverState) (msg : Datagram) (now : Nat) (rnd : String),
      msg.address = "192.168.1.1" →
      receiverHandleMessage ["10.0.0.0/8"] st msg now rnd = st) ∧
    (∀ (msg : Datagram) (family : String) (nowIso : Nat),
      (msg.address = "10.5.5.5" →
        triggerHandleMessage ⟨["10.0.0.0/8"], "", "", false⟩ msg family nowIso =
          [.trapItem (parseTrapMessage msg family ⟨["10.0.0.0/8"], "", "", false⟩ nowIso)]) ∧
      (msg.address = "192.168.1.1" →
        triggerHandleMessage ⟨["10.0.0.0/8"], "", "", false⟩ msg family nowIso = [])) ∧
    (∀ (sa rule base pstr : String) (src b : Nat) (p : Int),
      jsTrim rule = rule → rule ≠ "" → jsIncludesChar rule '/' = true →
      jsSplit rule '/' = [base, pstr] →
      ipToLong base = some b → jsParseIntDec pstr = some p → 0 ≤ p → p ≤ 32 →
      ruleMatches sa src rule =
        decide (Nat.land src (if p = 0 then 0 else 2 ^ 32 - 2 ^ (32 - p.toNat)) =
          Nat.land b (if p = 0 then 0 else 2 ^ 32 - 2 ^ (32 - p.toNat)))) ∧
    (∀ (sa rule : String) (src : Nat),
      jsTrim rule = rule → rule ≠ "" → jsIncludesChar rule '/' = false →
      ruleMatches sa src rule = decide (sa = rule)) := by
  refine ⟨fun src => rfl, fun src => rfl, by decide, by decide, ?_, ?_, ?_, ?_, ?_⟩
  · -- receiver accepts 10.5.5.5 and appends one record
    intro st msg now rnd haddr hlen
    have hp : parseSnmpMessage msg.data now =
        .ok { pduType := "trap", version := 1, community := "public",
              enterprise := "1.3.6.1.4.1.0", agentAddr := "0.0.0.0",
              genericTrap := 6, specificTrap := 0, timestamp := now, uptime := 0,
              varbinds := [] } := by
      unfold parseSnmpMessage
      rw [if_neg (by omega)]
    have hbody : receiverHandlerBody ["10.0.0.0/8"] st msg now rnd =
        .ok { st with
          receivedTraps := st.receivedTraps ++
            [processTrapPdu
              { pduType := "trap", version := 1, community := "public",
                enterprise := "1.3.6.1.4.1.0", agentAddr := "0.0.0.0",
                genericTrap := 6, specificTrap := 0, timestamp := now, uptime := 0,
                varbinds := [] } ⟨msg.address, msg.port⟩ now rnd],
          trapCount := st.trapCount + 1 } := by
      unfold receiverHandlerBody
      rw [haddr, if_neg (by decide), hp]
    unfold receiverHandleMessage
    rw [hbody]
    simp
  · -- receiver silently drops 192.168.1.1
    intro st msg now rnd haddr
    have hbody : receiverHandlerBody ["10.0.0.0/8"] st msg now rnd = .ok st := by
      unfold receiverHandlerBody
      rw [haddr, if_pos (by decide)]
    unfold receiverHandleMessage
    rw [hbody]
  · -- trigger emits exactly one item / nothing
    intro msg family nowIso
    constructor
    · intro haddr
      have hbody : triggerHandlerBody ⟨["10.0.0.0/8"], "", "", false⟩ msg family nowIso =
          .ok [parseTrapMessage msg family ⟨["10.0.0.0/8"], "", "", false⟩ nowIso] := by
        simp only [triggerHandlerBody]
        rw [haddr, if_neg (by decide), if_neg (by simp), if_neg (by simp)]
      unfold triggerHandleMessage
      rw [hbody]
      rfl
    · intro haddr
      have hbody : triggerHandlerBody ⟨["10.0.0.0/8"], "", "", false⟩ msg family nowIso =
          .ok [] := by
        simp only [triggerHandlerBody]
        rw [haddr, if_pos (by decide)]
      unfold triggerHandleMessage
      rw [hbody]
      rfl
  · -- CIDR rules match by masked integer comparison
    intro sa rule base pstr src b p htrim hne hinc hsplit hbase hp hp0 hp32
    simp only [ruleMatches]
    rw [htrim, if_neg hne, hinc]
    rw [if_pos rfl, hsplit]
    simp only [List.headD, List.drop, List.head?]
    rw [hbase, hp]
    show (if p < 0 ∨ 32 < p then false
      else decide (Nat.land src (if p = 0 then 0 else 2 ^ 32 - 2 ^ (32 - p.toNat)) =
        Nat.land b (if p = 0 then 0 else 2 ^ 32 - 2 ^ (32 - p.toNat)))) = _
    rw [if_neg (show ¬ (p < 0 ∨ 32 < p) by omega)]
  · -- plain rules match by exact equality with the source address
    intro sa rule src htrim hne hinc
    simp only [ruleMatches]
    rw [htrim, if_neg hne, hinc]
    rw [if_neg (by simp)]

end Trap

namespace Trap

/-- Witness for C7: from the empty receiver state, a 12-byte datagram from
10.5.5.5 yields exactly one record, one from 192.168.1.1 leaves the state
untouched, and the rule `10.0.0.0/8` compares the masked address integers. -/
theorem trap_source_filter_property_witness :
    ((receiverHandleMessage ["10.0.0.0/8"] ⟨[], 0, true⟩
        ⟨"10.5.5.5", 2001, [0, 0, 0, 0, 0, 0, 0, 0, 0, 0, 0, 0]⟩ 99 "r").receivedTraps.length =
      ([] : List SnmpTrapData).length + 1) ∧
    receiverHandleMessage ["10.0.0.0/8"] ⟨[], 0, true⟩
      ⟨"192.168.1.1", 2001, [0, 0, 0, 0, 0, 0, 0, 0, 0, 0, 0, 0]⟩ 99 "r" = ⟨[], 0, true⟩ ∧
    ruleMatches "10.5.5.5" 168101125 "10.0.0.0/8" =
      decide (Nat.land 168101125 (if (8 : Int) = 0 then 0 else 2 ^ 32 - 2 ^ (32 - (8 : Int).toNat)) =
        Nat.land 167772160 (if (8 : Int) = 0 then 0 else 2 ^ 32 - 2 ^ (32 - (8 : Int).toNat))) :=
  ⟨(trap_source_filter_property.2.2.2.2.1 ⟨[], 0, true⟩
      ⟨"10.5.5.5", 2001, [0, 0, 0, 0, 0, 0, 0, 0, 0, 0, 0, 0]⟩ 99 "r" rfl (by decide)).1,
    trap_source_filter_property.2.2.2.2.2.1 ⟨[], 0, true⟩
      ⟨"192.168.1.1", 2001, [0, 0, 0, 0, 0, 0, 0, 0, 0, 0, 0, 0]⟩ 99 "r" rfl,
    trap_source_filter_property.2.2.2.2.2.2.2.1 "10.5.5.5" "10.0.0.0/8" "10.0.0.0" "8"
      168101125 167772160 8 (by decide) (by decide) (by decide) (by decide)
      (by decide) (by decide) (by decide) (by decide)⟩

/-- **C8**: parse failures for one datagram are contained.  In the batch
receiver, a too-short buffer makes the handler body throw the parse error;
the surrounding catch swallows it and the handler returns the state
unchanged — no record, same counter, still listening.  In the continuous
trigger, the handler body never throws at all: its parser is total (internal
failures fall back to preset defaults), so no parse error can reach the
catch-and-continue path and the listener keeps running. -/
theorem trap_parse_error_containment :
    (∀ (allowed : List String) (st : ReceiverState) (msg : Datagram)
        (now : Nat) (rnd : String),
      isSourceAllowed msg.address allowed = true →
      msg.data.length < 10 →
      receiverHandlerBody allowed st msg now rnd =
        .error "Failed to parse SNMP message: Error: Message too short for SNMP" ∧
      receiverHandleMessage allowed st msg now rnd = st) ∧
    (∀ (opts : TriggerOptions) (msg : Datagram) (family : String) (nowIso : Nat),
      ∃ items, triggerHandlerBody opts msg family nowIso = .ok items) := by
  constructor
  · intro allowed st msg now rnd hsa hlen
    have hp : parseSnmpMessage msg.data now =
        .error "Failed to parse SNMP message: Error: Message too short for SNMP" := by
      unfold parseSnmpMessage
      rw [if_pos hlen]
    have hbody : receiverHandlerBody allowed st msg now rnd =
        .error "Failed to parse SNMP message: Error: Message too short for SNMP" := by
      unfold receiverHandlerBody
      rw [if_neg (by simp [hsa]), hp]
    refine ⟨hbody, ?_⟩
    unfold receiverHandleMessage
    rw [hbody]
  · intro opts msg family nowIso
    simp only [triggerHandlerBody]
    split
    · exact ⟨_, rfl⟩
    · split
      · exact ⟨_, rfl⟩
      · split
        · exact ⟨_, rfl⟩
        · exact ⟨_, rfl⟩

/-- Witness for C8: a 3-byte datagram makes the receiver body throw the
parse error, and the installed handler swallows it, leaving the empty state
(and its listening flag) unchanged. -/
theorem trap_parse_error_containment_witness :
    isSourceAllowed "127.0.0.1" [] = true ∧
    ([1, 2, 3] : List Nat).length < 10 ∧
    receiverHandlerBody [] ⟨[], 0, true⟩ ⟨"127.0.0.1", 5, [1, 2, 3]⟩ 7 "r" =
      .error "Failed to parse SNMP message: Error: Message too short for SNMP" ∧
    receiverHandleMessage [] ⟨[], 0, true⟩ ⟨"127.0.0.1", 5, [1, 2, 3]⟩ 7 "r" =
      ⟨[], 0, true⟩ :=
  ⟨by decide, by decide,
    (trap_parse_error_containment.1 [] ⟨[], 0, true⟩ ⟨"127.0.0.1", 5, [1, 2, 3]⟩ 7 "r"
      (by decide) (by decide)).1,
    (trap_parse_error_containment.1 [] ⟨[], 0, true⟩ ⟨"127.0.0.1", 5, [1, 2, 3]⟩ 7 "r"
      (by decide) (by decide)).2⟩

end Trap
